import Mathlib

/-!
# Verification of the federated query planner's data-source selection and orchestration

Shallow embedding of the planning engine of this repository:
* the minimal-cover data-source selection (`findUsedDataSources`,
  `findBestDataSourceSet` from `pkg/engine/plan`'s data-source filter),
* the `Planner` orchestration (`NewPlanner`, `Plan`, `selectOperation`,
  `findPlanningPaths`, `removeUnnecessaryFragmentPaths`).

The generic AST walker is out of scope of the source excerpt; an operation is
embedded as the list of `(enclosingTypeName, fieldName)` pairs the walker's
`EnterField` callback observes, in traversal order.  The configuration visitor
(also out of scope) is embedded as an opaque state machine.
-/

namespace GraphqlPlan

/-- A data-source configuration: the identity plus the root/child node tables,
as consumed by `HasRootNode` / `HasChildNode` (`DataSourceConfiguration`). -/
structure DataSourceConfiguration where
  id : String
  rootNodes : List (String × String)
  childNodes : List (String × String)
deriving DecidableEq, Repr

/-- Embeds `DataSourceConfiguration.HasRootNode`: the (typeName, fieldName) pair is in
the root-node table. -/
def DataSourceConfiguration.hasRootNode (ds : DataSourceConfiguration)
    (typeName fieldName : String) : Bool :=
  ds.rootNodes.contains (typeName, fieldName)

/-- Embeds `DataSourceConfiguration.HasChildNode`: the (typeName, fieldName) pair is in
the child-node table. -/
def DataSourceConfiguration.hasChildNode (ds : DataSourceConfiguration)
    (typeName fieldName : String) : Bool :=
  ds.childNodes.contains (typeName, fieldName)

/-- The disjunction tested by `findUsedDataSourceVisitor.EnterField`:
`ds.HasRootNode(typeName, fieldName) || ds.HasChildNode(typeName, fieldName)`. -/
def DataSourceConfiguration.resolves (ds : DataSourceConfiguration)
    (typeName fieldName : String) : Bool :=
  ds.hasRootNode typeName fieldName || ds.hasChildNode typeName fieldName

/-- A field occurrence of the operation as seen by the walker: the enclosing
type definition's name and the field name, in traversal order. -/
abbrev OperationField := String × String

/-- Embeds `UsedNode`: a field actually referenced by the operation and matched to a
selected data source. -/
structure UsedNode where
  typeName : String
  fieldName : String
deriving DecidableEq, Repr

/-- Embeds `UsedDataSourceConfiguration`: a data source together with the used nodes
recorded against it. -/
structure UsedDataSourceConfiguration where
  dataSource : DataSourceConfiguration
  usedNodes : List UsedNode
deriving DecidableEq, Repr

/-- Embeds `errOperationFieldNotResolved`: the field-not-resolvable error value. -/
structure ErrOperationFieldNotResolved where
  typeName : String
  fieldName : String
deriving DecidableEq, Repr

/-- One step of `findUsedDataSourceVisitor.EnterField`'s loop body: walk the
visitor's data-source list in order, append a `UsedNode` to the first entry
whose data source resolves the field, and report whether one was found. -/
def recordUsedNode : List UsedDataSourceConfiguration → String → String →
    List UsedDataSourceConfiguration × Bool
  | [], _, _ => ([], false)
  | u :: rest, typeName, fieldName =>
    if u.dataSource.resolves typeName fieldName then
      ({ u with usedNodes := u.usedNodes ++ [⟨typeName, fieldName⟩] } :: rest, true)
    else
      let r := recordUsedNode rest typeName fieldName
      (u :: r.1, r.2)

/-- The mutable state of `findUsedDataSourceVisitor`: the per-data-source used
nodes and the last recorded error. -/
structure FindUsedState where
  dataSources : List UsedDataSourceConfiguration
  err : Option ErrOperationFieldNotResolved
deriving DecidableEq, Repr

/-- Embeds `findUsedDataSourceVisitor.EnterField`: record the used node against the
first covering data source; if none covers the field, overwrite `err` with a
field-not-resolvable error for this field. -/
def enterField (st : FindUsedState) (typeName fieldName : String) : FindUsedState :=
  let r := recordUsedNode st.dataSources typeName fieldName
  { dataSources := r.1
    err := if r.2 then st.err else some ⟨typeName, fieldName⟩ }

/-- The walker's field traversal: `EnterField` on every field of the operation,
in traversal order (the walk itself is out of scope and never errors here). -/
def walkFields : List OperationField → FindUsedState → FindUsedState
  | [], st => st
  | f :: rest, st => walkFields rest (enterField st f.1 f.2)

/-- Does some data source of the list resolve this field? -/
def resolvableBy (dataSources : List DataSourceConfiguration) (f : OperationField) : Bool :=
  dataSources.any (fun ds => ds.resolves f.1 f.2)

/-- Every referenced field of the operation is resolvable by at least one data
source of the list. -/
def coversOp (dataSources : List DataSourceConfiguration) (op : List OperationField) : Bool :=
  op.all (fun f => resolvableBy dataSources f)

/-- Embeds `findUsedDataSources`: visit every field, then either return the recorded
error or the data sources that have at least one used node. -/
def findUsedDataSources (op : List OperationField)
    (dataSources : List DataSourceConfiguration) :
    Except ErrOperationFieldNotResolved (List UsedDataSourceConfiguration) :=
  let initial : List UsedDataSourceConfiguration :=
    dataSources.map (fun ds => ⟨ds, []⟩)
  let final := walkFields op ⟨initial, none⟩
  match final.err with
  | some e => .error e
  | none => .ok (final.dataSources.filter (fun u => !u.usedNodes.isEmpty))

/-- Embeds `dataSourcesSubset`: the data-source list with the entry at index `exclude`
removed (`dataSources[:exclude] ++ dataSources[exclude+1:]`). -/
def dataSourcesSubset (dataSources : List DataSourceConfiguration) (exclude : Nat) :
    List DataSourceConfiguration :=
  dataSources.take exclude ++ dataSources.drop (exclude + 1)

/-- The `best`-update of `findBestDataSourceSet`'s exclusion loop: adopt the
recursive result only when it is non-nil and strictly smaller. -/
def shorterCandidate (best result : List UsedDataSourceConfiguration) :
    List UsedDataSourceConfiguration :=
  if 0 < result.length ∧ result.length < best.length then result else best

/-- The exclusion loop of `findBestDataSourceSet`: fold over the exclusion
indices in ascending order, where `g excluded` stands for the recursive call on
the subset without index `excluded`; a field-not-resolvable error from the
recursive call makes the loop `continue` with the current best. -/
def exclusionFold
    (g : Nat → Except ErrOperationFieldNotResolved (List UsedDataSourceConfiguration))
    (init : List UsedDataSourceConfiguration) (l : List Nat) :
    List UsedDataSourceConfiguration :=
  l.foldl (fun best excluded =>
    match g excluded with
    | .error _ => best
    | .ok result => shorterCandidate best result) init

/-- Embeds `findBestDataSourceSet` with an explicit recursion budget.  The source
recurses on `dataSourcesSubset`, whose length is one less than the input's, so
a budget equal to the list length makes the recursion structural; the budget is
never exhausted when it starts at the list length.  A recursive call's
field-not-resolvable error makes the loop `continue` with the current best
(`errors.As` matches, as that is the only error produced here: the embedded
walk itself cannot fail). -/
def findBestDataSourceSetFuel : Nat → List OperationField → List DataSourceConfiguration →
    Except ErrOperationFieldNotResolved (List UsedDataSourceConfiguration)
  | fuel, op, dataSources =>
    match findUsedDataSources op dataSources with
    | .error e => .error e
    | .ok planned =>
      if planned.length = 1 then .ok planned
      else
        match fuel with
        | 0 => .ok planned
        | fuel' + 1 =>
          .ok (exclusionFold
            (fun excluded =>
              findBestDataSourceSetFuel fuel' op (dataSourcesSubset dataSources excluded))
            planned (List.range dataSources.length))

/-- Embeds `findBestDataSourceSet`: search for a minimum covering subset by trying to
exclude each data-source index in ascending order. -/
def findBestDataSourceSet (op : List OperationField)
    (dataSources : List DataSourceConfiguration) :
    Except ErrOperationFieldNotResolved (List UsedDataSourceConfiguration) :=
  findBestDataSourceSetFuel dataSources.length op dataSources

instance instDecEqExcept {ε α : Type} [DecidableEq ε] [DecidableEq α] :
    DecidableEq (Except ε α) := fun x y =>
  match x, y with
  | .error a, .error b =>
    if h : a = b then .isTrue (by rw [h]) else .isFalse (by simp [h])
  | .error _, .ok _ => .isFalse (by simp)
  | .ok _, .error _ => .isFalse (by simp)
  | .ok a, .ok b =>
    if h : a = b then .isTrue (by rw [h]) else .isFalse (by simp [h])

section Sanity

/-- Data sources used in concrete evaluations. -/
def dsAlpha : DataSourceConfiguration :=
  ⟨"alpha", [("Query", "a")], []⟩

def dsBeta : DataSourceConfiguration :=
  ⟨"beta", [("Query", "a"), ("Query", "b")], [("A", "x")]⟩

def dsGamma : DataSourceConfiguration :=
  ⟨"gamma", [("Query", "b")], []⟩

example : findUsedDataSources [("Query", "a")] [dsAlpha, dsBeta] =
    .ok [⟨dsAlpha, [⟨"Query", "a"⟩]⟩] := by decide

example : findBestDataSourceSet [("Query", "a"), ("Query", "b")] [dsAlpha, dsGamma, dsBeta] =
    .ok [⟨dsBeta, [⟨"Query", "a"⟩, ⟨"Query", "b"⟩]⟩] := by decide

example : findBestDataSourceSet [("Query", "a"), ("Query", "zz")] [dsAlpha, dsBeta] =
    .error ⟨"Query", "zz"⟩ := by decide

end Sanity

/-! ## Basic lemmas about the used-node visitor -/

/-- The data sources underlying a visitor state, in order. -/
def FindUsedState.sources (st : FindUsedState) : List DataSourceConfiguration :=
  st.dataSources.map (fun u => u.dataSource)

theorem recordUsedNode_map (l : List UsedDataSourceConfiguration) (t f : String) :
    (recordUsedNode l t f).1.map (fun u => u.dataSource) = l.map (fun u => u.dataSource) := by
  induction l with
  | nil => rfl
  | cons u rest ih =>
    by_cases h : u.dataSource.resolves t f = true
    · simp [recordUsedNode, h]
    · simp only [recordUsedNode, if_neg h, List.map_cons]
      rw [ih]

theorem recordUsedNode_length (l : List UsedDataSourceConfiguration) (t f : String) :
    (recordUsedNode l t f).1.length = l.length := by
  have h := congrArg List.length (recordUsedNode_map l t f)
  simpa using h

theorem recordUsedNode_found (l : List UsedDataSourceConfiguration) (t f : String) :
    (recordUsedNode l t f).2 = l.any (fun u => u.dataSource.resolves t f) := by
  induction l with
  | nil => rfl
  | cons u rest ih =>
    by_cases h : u.dataSource.resolves t f = true
    · simp [recordUsedNode, h]
    · simp only [recordUsedNode, if_neg h, List.any_cons]
      rw [ih]
      simp [Bool.not_eq_true] at h
      simp [h]

theorem any_resolves_eq_resolvableBy (l : List UsedDataSourceConfiguration) (t f : String) :
    l.any (fun u => u.dataSource.resolves t f)
      = resolvableBy (l.map (fun u => u.dataSource)) (t, f) := by
  induction l with
  | nil => rfl
  | cons u rest ih =>
    simp [resolvableBy] at ih ⊢
    rw [ih]

theorem enterField_sources (st : FindUsedState) (t f : String) :
    (enterField st t f).sources = st.sources := by
  simp [enterField, FindUsedState.sources, recordUsedNode_map]

theorem walkFields_sources (op : List OperationField) (st : FindUsedState) :
    (walkFields op st).sources = st.sources := by
  induction op generalizing st with
  | nil => rfl
  | cons f rest ih => rw [walkFields, ih, enterField_sources]

theorem walkFields_length (op : List OperationField) (st : FindUsedState) :
    (walkFields op st).dataSources.length = st.dataSources.length := by
  have h := congrArg List.length (walkFields_sources op st)
  simpa [FindUsedState.sources] using h

/-- The value `err` holds after the walk: the last field of the operation that
no data source of the visitor resolves, or the incoming `err` when every field
is resolvable. -/
def lastUnresolvedErr (dss : List DataSourceConfiguration) (op : List OperationField)
    (e : Option ErrOperationFieldNotResolved) : Option ErrOperationFieldNotResolved :=
  match (op.filter (fun f => !resolvableBy dss f)).getLast? with
  | some f => some ⟨f.1, f.2⟩
  | none => e

theorem enterField_err (st : FindUsedState) (t f : String) :
    (enterField st t f).err =
      if resolvableBy st.sources (t, f) then st.err else some ⟨t, f⟩ := by
  simp only [enterField, recordUsedNode_found, any_resolves_eq_resolvableBy]
  rfl

theorem walkFields_err (op : List OperationField) (st : FindUsedState) :
    (walkFields op st).err = lastUnresolvedErr st.sources op st.err := by
  induction op generalizing st with
  | nil => rfl
  | cons f rest ih =>
    rw [walkFields, ih, enterField_sources]
    by_cases h : resolvableBy st.sources (f.1, f.2) = true
    · have hf : (List.filter (fun g => !resolvableBy st.sources g) (f :: rest))
          = List.filter (fun g => !resolvableBy st.sources g) rest := by
        simp [List.filter_cons, h]
      simp [lastUnresolvedErr, hf, enterField_err, h]
    · have hb : (!resolvableBy st.sources f) = true := by
        simp [Bool.not_eq_true] at h; simp [h]
      have hf : (List.filter (fun g => !resolvableBy st.sources g) (f :: rest))
          = f :: List.filter (fun g => !resolvableBy st.sources g) rest := by
        simp [List.filter_cons, hb]
      rw [lastUnresolvedErr, lastUnresolvedErr, hf]
      cases hrest : List.filter (fun g => !resolvableBy st.sources g) rest with
      | nil =>
        simp [enterField_err, h]
      | cons g gs =>
        cases hgl : (g :: gs).getLast? with
        | none => simp at hgl
        | some x => rw [List.getLast?_cons_cons, hgl]

/-! ## Positional closed form of the walk -/

/-- Index of the first data source of the visitor list resolving the field
(`l.length` when none does): the entry `EnterField` appends the used node to. -/
def firstIdx (l : List UsedDataSourceConfiguration) (t f : String) : Nat :=
  l.findIdx (fun u => u.dataSource.resolves t f)

/-- The used nodes that the walk appends to the data source at index `j`: one
node per operation field whose first covering data source sits at `j`. -/
def nodesAt (l : List UsedDataSourceConfiguration) (j : Nat)
    (op : List OperationField) : List UsedNode :=
  (op.filter (fun f => firstIdx l f.1 f.2 == j)).map (fun f => ⟨f.1, f.2⟩)

theorem nodesAt_nil (l : List UsedDataSourceConfiguration) (j : Nat) :
    nodesAt l j [] = [] := rfl

theorem nodesAt_cons (l : List UsedDataSourceConfiguration) (j : Nat)
    (f : OperationField) (rest : List OperationField) :
    nodesAt l j (f :: rest) =
      (if firstIdx l f.1 f.2 = j then [(⟨f.1, f.2⟩ : UsedNode)] else [])
        ++ nodesAt l j rest := by
  by_cases h : firstIdx l f.1 f.2 = j <;> simp [nodesAt, List.filter_cons, h]

theorem recordUsedNode_getElem? (l : List UsedDataSourceConfiguration)
    (t f : String) (j : Nat) :
    (recordUsedNode l t f).1[j]? =
      (l[j]?).map (fun u =>
        if firstIdx l t f = j then { u with usedNodes := u.usedNodes ++ [⟨t, f⟩] }
        else u) := by
  induction l generalizing j with
  | nil => simp [recordUsedNode]
  | cons u rest ih =>
    by_cases h : u.dataSource.resolves t f = true
    · have hidx : firstIdx (u :: rest) t f = 0 := by
        simp [firstIdx, List.findIdx_cons, h]
      cases j with
      | zero => simp [recordUsedNode, h, hidx]
      | succ j' => simp [recordUsedNode, h, hidx]
    · have hidx : firstIdx (u :: rest) t f = firstIdx rest t f + 1 := by
        simp only [firstIdx, List.findIdx_cons, h]
        simp [Bool.not_eq_true] at h
        simp [h]
      cases j with
      | zero => simp [recordUsedNode, h, hidx]
      | succ j' =>
        simp only [recordUsedNode, if_neg h, List.getElem?_cons_succ, hidx]
        rw [ih j']
        congr 1
        funext v
        by_cases hj : firstIdx rest t f = j'
        · rw [if_pos hj, if_pos (by omega)]
        · rw [if_neg hj, if_neg (by omega)]

theorem firstIdx_recordUsedNode (l : List UsedDataSourceConfiguration)
    (t f t' f' : String) :
    firstIdx (recordUsedNode l t f).1 t' f' = firstIdx l t' f' := by
  induction l with
  | nil => rfl
  | cons u rest ih =>
    by_cases h : u.dataSource.resolves t f = true
    · simp [recordUsedNode, h, firstIdx, List.findIdx_cons]
    · simp only [recordUsedNode, if_neg h, firstIdx, List.findIdx_cons]
      cases hp : u.dataSource.resolves t' f' with
      | true => rfl
      | false =>
        simp only [cond_false]
        have := ih
        simp only [firstIdx] at this
        rw [this]

theorem enterField_dataSources (st : FindUsedState) (t f : String) :
    (enterField st t f).dataSources = (recordUsedNode st.dataSources t f).1 := rfl

theorem firstIdx_enterField (st : FindUsedState) (t f t' f' : String) :
    firstIdx (enterField st t f).dataSources t' f' = firstIdx st.dataSources t' f' := by
  rw [enterField_dataSources, firstIdx_recordUsedNode]

theorem nodesAt_enterField (st : FindUsedState) (t f : String) (j : Nat)
    (op : List OperationField) :
    nodesAt (enterField st t f).dataSources j op = nodesAt st.dataSources j op := by
  unfold nodesAt
  congr 1
  apply List.filter_congr
  intro g _
  rw [firstIdx_enterField]

theorem walkFields_getElem? (op : List OperationField) (st : FindUsedState) (j : Nat) :
    (walkFields op st).dataSources[j]? =
      (st.dataSources[j]?).map
        (fun u => { u with usedNodes := u.usedNodes ++ nodesAt st.dataSources j op }) := by
  induction op generalizing st with
  | nil =>
    cases h : st.dataSources[j]? <;> simp [walkFields, nodesAt, h]
  | cons f rest ih =>
    rw [walkFields, ih, nodesAt_enterField, enterField_dataSources,
      recordUsedNode_getElem?, Option.map_map, nodesAt_cons]
    cases h : st.dataSources[j]? with
    | none => rfl
    | some u =>
      simp only [Option.map_some', Function.comp]
      by_cases hj : firstIdx st.dataSources f.1 f.2 = j
      · simp [hj]
      · simp [hj]

/-! ## Characterization of findUsedDataSources -/

/-- The visitor's initial state: one entry per configured data source, no used
nodes, no error. -/
def initState (dss : List DataSourceConfiguration) : FindUsedState :=
  ⟨dss.map (fun ds => ⟨ds, []⟩), none⟩

theorem initState_sources (dss : List DataSourceConfiguration) :
    (initState dss).sources = dss := by
  unfold initState FindUsedState.sources
  rw [List.map_map]
  exact List.map_id'' (fun x => rfl) dss

theorem coversOp_iff (dss : List DataSourceConfiguration) (op : List OperationField) :
    coversOp dss op = true ↔ ∀ f ∈ op, resolvableBy dss f = true := by
  simp [coversOp]

theorem unresolvedFilter_nil_iff (dss : List DataSourceConfiguration)
    (op : List OperationField) :
    (op.filter (fun f => !resolvableBy dss f)) = [] ↔ coversOp dss op = true := by
  rw [coversOp_iff]
  simp

theorem walkFields_err_initState (op : List OperationField)
    (dss : List DataSourceConfiguration) :
    (walkFields op (initState dss)).err =
      ((op.filter (fun f => !resolvableBy dss f)).getLast?).map
        (fun g => (⟨g.1, g.2⟩ : ErrOperationFieldNotResolved)) := by
  rw [walkFields_err, initState_sources]
  show lastUnresolvedErr dss op none = _
  unfold lastUnresolvedErr
  cases hgl : (op.filter (fun f => !resolvableBy dss f)).getLast? <;> rfl

theorem findUsedDataSources_eq (op : List OperationField)
    (dss : List DataSourceConfiguration) :
    findUsedDataSources op dss =
      match (walkFields op (initState dss)).err with
      | some e => .error e
      | none => .ok ((walkFields op (initState dss)).dataSources.filter
          (fun u => !u.usedNodes.isEmpty)) := rfl

theorem findUsedDataSources_error (op : List OperationField)
    (dss : List DataSourceConfiguration) (g : OperationField)
    (h : (op.filter (fun f => !resolvableBy dss f)).getLast? = some g) :
    findUsedDataSources op dss = .error ⟨g.1, g.2⟩ := by
  rw [findUsedDataSources_eq, walkFields_err_initState, h]
  rfl

theorem findUsedDataSources_ok_val (op : List OperationField)
    (dss : List DataSourceConfiguration) (h : coversOp dss op = true) :
    findUsedDataSources op dss =
      .ok ((walkFields op (initState dss)).dataSources.filter
        (fun u => !u.usedNodes.isEmpty)) := by
  rw [findUsedDataSources_eq, walkFields_err_initState]
  rw [← unresolvedFilter_nil_iff dss op] at h
  rw [h]
  rfl

theorem findUsedDataSources_ok_iff (op : List OperationField)
    (dss : List DataSourceConfiguration) :
    (∃ r, findUsedDataSources op dss = .ok r) ↔ coversOp dss op = true := by
  constructor
  · rintro ⟨r, hr⟩
    rw [findUsedDataSources_eq, walkFields_err_initState] at hr
    rw [← unresolvedFilter_nil_iff dss op]
    cases hgl : (op.filter (fun f => !resolvableBy dss f)).getLast? with
    | none => exact List.getLast?_eq_none_iff.mp hgl
    | some g => rw [hgl] at hr; exact absurd hr (by simp)
  · intro h
    exact ⟨_, findUsedDataSources_ok_val op dss h⟩

theorem findUsedDataSources_ok_covers {op : List OperationField}
    {dss : List DataSourceConfiguration} {used : List UsedDataSourceConfiguration}
    (h : findUsedDataSources op dss = .ok used) : coversOp dss op = true :=
  (findUsedDataSources_ok_iff op dss).mp ⟨used, h⟩

theorem mem_findUsedDataSources_ok {op : List OperationField}
    {dss : List DataSourceConfiguration} {used : List UsedDataSourceConfiguration}
    (h : findUsedDataSources op dss = .ok used) (u : UsedDataSourceConfiguration) :
    u ∈ used ↔ u ∈ (walkFields op (initState dss)).dataSources ∧ u.usedNodes ≠ [] := by
  have hc := findUsedDataSources_ok_covers h
  rw [findUsedDataSources_ok_val op dss hc] at h
  have hval : used = (walkFields op (initState dss)).dataSources.filter
      (fun u => !u.usedNodes.isEmpty) := (Except.ok.inj h).symm
  rw [hval, List.mem_filter]
  simp

theorem findUsedDataSources_length_le {op : List OperationField}
    {dss : List DataSourceConfiguration} {used : List UsedDataSourceConfiguration}
    (h : findUsedDataSources op dss = .ok used) : used.length ≤ dss.length := by
  have hc := findUsedDataSources_ok_covers h
  rw [findUsedDataSources_ok_val op dss hc] at h
  have hval : used = (walkFields op (initState dss)).dataSources.filter
      (fun u => !u.usedNodes.isEmpty) := (Except.ok.inj h).symm
  rw [hval]
  calc ((walkFields op (initState dss)).dataSources.filter
          (fun u => !u.usedNodes.isEmpty)).length
      ≤ (walkFields op (initState dss)).dataSources.length := List.length_filter_le _ _
    _ = (initState dss).dataSources.length := walkFields_length op _
    _ = dss.length := by simp [initState]

theorem findUsedDataSources_nil (dss : List DataSourceConfiguration) :
    findUsedDataSources [] dss = .ok [] := by
  have hc : coversOp dss [] = true := rfl
  rw [findUsedDataSources_ok_val [] dss hc]
  have hwalk : walkFields [] (initState dss) = initState dss := rfl
  rw [hwalk]
  congr 1
  rw [List.filter_eq_nil_iff]
  intro u hu
  simp only [initState] at hu
  obtain ⟨ds, _, rfl⟩ := List.mem_map.mp hu
  simp

theorem walkFields_records {op : List OperationField} {dss : List DataSourceConfiguration}
    {f : OperationField} (hf : f ∈ op) (hres : resolvableBy dss f = true) :
    ∃ u ∈ (walkFields op (initState dss)).dataSources,
      u.dataSource.resolves f.1 f.2 = true ∧ (⟨f.1, f.2⟩ : UsedNode) ∈ u.usedNodes := by
  have hex : ∃ v ∈ (initState dss).dataSources, v.dataSource.resolves f.1 f.2 = true := by
    simp only [resolvableBy, List.any_eq_true] at hres
    obtain ⟨ds, hds, hr⟩ := hres
    refine ⟨⟨ds, []⟩, ?_, hr⟩
    simp [initState]
    exact hds
  have hj : firstIdx (initState dss).dataSources f.1 f.2 < (initState dss).dataSources.length :=
    List.findIdx_lt_length_of_exists hex
  set j := firstIdx (initState dss).dataSources f.1 f.2 with hjdef
  have hsome : (initState dss).dataSources[j]? = some ((initState dss).dataSources[j]) :=
    List.getElem?_eq_getElem hj
  have hwalk := walkFields_getElem? op (initState dss) j
  rw [hsome] at hwalk
  refine ⟨_, List.getElem?_mem hwalk, ?_, ?_⟩
  · show ((initState dss).dataSources[j]).dataSource.resolves f.1 f.2 = true
    exact @List.findIdx_getElem _ _ _ hj
  · show (⟨f.1, f.2⟩ : UsedNode) ∈ _ ++ nodesAt (initState dss).dataSources j op
    apply List.mem_append_right
    unfold nodesAt
    apply List.mem_map.mpr
    refine ⟨f, ?_, rfl⟩
    apply List.mem_filter.mpr
    exact ⟨hf, by simp⟩

theorem findUsedDataSources_covered {op : List OperationField}
    {dss : List DataSourceConfiguration} {used : List UsedDataSourceConfiguration}
    (h : findUsedDataSources op dss = .ok used) {f : OperationField} (hf : f ∈ op) :
    ∃ u ∈ used, u.dataSource.resolves f.1 f.2 = true ∧ (⟨f.1, f.2⟩ : UsedNode) ∈ u.usedNodes := by
  have hres : resolvableBy dss f = true :=
    (coversOp_iff dss op).mp (findUsedDataSources_ok_covers h) f hf
  obtain ⟨u, hu, hr, hn⟩ := walkFields_records hf hres
  refine ⟨u, ?_, hr, hn⟩
  rw [mem_findUsedDataSources_ok h]
  exact ⟨hu, fun hnil => by rw [hnil] at hn; exact absurd hn (List.not_mem_nil _)⟩

theorem findUsedDataSources_pos {op : List OperationField}
    {dss : List DataSourceConfiguration} {used : List UsedDataSourceConfiguration}
    (h : findUsedDataSources op dss = .ok used) (hop : op ≠ []) : 0 < used.length := by
  obtain ⟨f, hf⟩ := List.exists_mem_of_ne_nil op hop
  obtain ⟨u, hu, -, -⟩ := findUsedDataSources_covered h hf
  exact List.length_pos.mpr (fun hnil => by rw [hnil] at hu; exact absurd hu (List.not_mem_nil _))

/-! ## Lemmas about the exclusion fold -/

theorem exclusionFold_cons
    (g : Nat → Except ErrOperationFieldNotResolved (List UsedDataSourceConfiguration))
    (init : List UsedDataSourceConfiguration) (x : Nat) (xs : List Nat) :
    exclusionFold g init (x :: xs) =
      exclusionFold g
        (match g x with
         | .error _ => init
         | .ok result => shorterCandidate init result) xs := rfl

theorem shorterCandidate_length_le (best result : List UsedDataSourceConfiguration) :
    (shorterCandidate best result).length ≤ best.length := by
  unfold shorterCandidate
  split
  · next h => exact Nat.le_of_lt h.2
  · exact Nat.le_refl _

theorem shorterCandidate_le_result {best result : List UsedDataSourceConfiguration}
    (h : 0 < result.length) : (shorterCandidate best result).length ≤ result.length := by
  unfold shorterCandidate
  split
  · exact Nat.le_refl _
  · next hn =>
    rcases Nat.lt_or_ge result.length best.length with hlt | hge
    · exact absurd ⟨h, hlt⟩ hn
    · exact hge

theorem shorterCandidate_pos {best result : List UsedDataSourceConfiguration}
    (h : 0 < best.length) : 0 < (shorterCandidate best result).length := by
  unfold shorterCandidate
  split
  · next hc => exact hc.1
  · exact h

theorem exclusionFold_le_init
    (g : Nat → Except ErrOperationFieldNotResolved (List UsedDataSourceConfiguration))
    (init : List UsedDataSourceConfiguration) (l : List Nat) :
    (exclusionFold g init l).length ≤ init.length := by
  induction l generalizing init with
  | nil => exact Nat.le_refl _
  | cons x xs ih =>
    rw [exclusionFold_cons]
    refine Nat.le_trans (ih _) ?_
    cases hg : g x with
    | error e => exact Nat.le_refl _
    | ok result => exact shorterCandidate_length_le init result

theorem exclusionFold_le_ok
    {g : Nat → Except ErrOperationFieldNotResolved (List UsedDataSourceConfiguration)}
    {init : List UsedDataSourceConfiguration} {l : List Nat} {x : Nat}
    {r : List UsedDataSourceConfiguration} (hx : x ∈ l) (hg : g x = .ok r)
    (hr : 0 < r.length) : (exclusionFold g init l).length ≤ r.length := by
  induction l generalizing init with
  | nil => exact absurd hx (List.not_mem_nil _)
  | cons y ys ih =>
    rw [exclusionFold_cons]
    rcases List.mem_cons.mp hx with rfl | hmem
    · rw [hg]
      exact Nat.le_trans (exclusionFold_le_init g _ ys) (shorterCandidate_le_result hr)
    · exact ih hmem

theorem exclusionFold_pos
    {g : Nat → Except ErrOperationFieldNotResolved (List UsedDataSourceConfiguration)}
    {init : List UsedDataSourceConfiguration} (l : List Nat)
    (h : 0 < init.length) : 0 < (exclusionFold g init l).length := by
  induction l generalizing init with
  | nil => exact h
  | cons y ys ih =>
    rw [exclusionFold_cons]
    apply ih
    cases hg : g y with
    | error e => exact h
    | ok result => exact shorterCandidate_pos h

/-! ## Sublists, coverage monotonicity -/

theorem coversOp_mono {S L : List DataSourceConfiguration} (hSL : S.Sublist L)
    {op : List OperationField} (h : coversOp S op = true) : coversOp L op = true := by
  rw [coversOp_iff] at h ⊢
  intro f hf
  have hs := h f hf
  simp only [resolvableBy, List.any_eq_true] at hs ⊢
  obtain ⟨ds, hds, hr⟩ := hs
  exact ⟨ds, hSL.subset hds, hr⟩

theorem coversOp_pos {S : List DataSourceConfiguration} {op : List OperationField}
    (h : coversOp S op = true) (hop : op ≠ []) : 0 < S.length := by
  obtain ⟨f, hf⟩ := List.exists_mem_of_ne_nil op hop
  have hs := (coversOp_iff S op).mp h f hf
  simp only [resolvableBy, List.any_eq_true] at hs
  obtain ⟨ds, hds, -⟩ := hs
  exact List.length_pos.mpr
    (fun hnil => by rw [hnil] at hds; exact absurd hds (List.not_mem_nil _))

theorem coversOp_nil_op (S : List DataSourceConfiguration) : coversOp S [] = true := rfl

theorem sublist_eraseIdx_of_ne {α : Type} {S L : List α} (h : S.Sublist L) (hne : S ≠ L) :
    ∃ i, i < L.length ∧ S.Sublist (L.eraseIdx i) := by
  induction h with
  | slnil => exact absurd rfl hne
  | cons a hsub ih =>
    exact ⟨0, Nat.succ_pos _, by simpa using hsub⟩
  | cons₂ a hsub ih =>
    rename_i l₁ l₂
    have hne' : l₁ ≠ l₂ := fun hc => hne (by rw [hc])
    obtain ⟨i, hi, hs⟩ := ih hne'
    refine ⟨i + 1, Nat.succ_lt_succ hi, ?_⟩
    rw [List.eraseIdx_cons_succ]
    exact hs.cons₂ a

theorem dataSourcesSubset_eq_eraseIdx (l : List DataSourceConfiguration) (i : Nat) :
    dataSourcesSubset l i = l.eraseIdx i := by
  rw [dataSourcesSubset, List.eraseIdx_eq_take_drop_succ]

theorem dataSourcesSubset_length {l : List DataSourceConfiguration} {i : Nat}
    (h : i < l.length) : (dataSourcesSubset l i).length = l.length - 1 := by
  rw [dataSourcesSubset_eq_eraseIdx]
  exact List.length_eraseIdx_of_lt h

/-! ## Behaviour of the bounded search -/

theorem findBestDataSourceSetFuel_ok (fuel : Nat) (op : List OperationField)
    (dss : List DataSourceConfiguration) (h : coversOp dss op = true) :
    ∃ r, findBestDataSourceSetFuel fuel op dss = .ok r := by
  obtain ⟨planned, hp⟩ := (findUsedDataSources_ok_iff op dss).mpr h
  unfold findBestDataSourceSetFuel
  simp only [hp]
  by_cases h1 : planned.length = 1
  · rw [if_pos h1]
    exact ⟨planned, rfl⟩
  · rw [if_neg h1]
    cases fuel with
    | zero => exact ⟨planned, rfl⟩
    | succ fuel' => exact ⟨_, rfl⟩

theorem findBestDataSourceSetFuel_error (fuel : Nat) (op : List OperationField)
    (dss : List DataSourceConfiguration) (e : ErrOperationFieldNotResolved)
    (h : findUsedDataSources op dss = .error e) :
    findBestDataSourceSetFuel fuel op dss = .error e := by
  unfold findBestDataSourceSetFuel
  rw [h]

theorem findBestDataSourceSetFuel_pos {fuel : Nat} {op : List OperationField}
    {dss : List DataSourceConfiguration} {r : List UsedDataSourceConfiguration}
    (hop : op ≠ []) (h : findBestDataSourceSetFuel fuel op dss = .ok r) :
    0 < r.length := by
  unfold findBestDataSourceSetFuel at h
  cases hu : findUsedDataSources op dss with
  | error e => rw [hu] at h; exact absurd h (by simp)
  | ok planned =>
    simp only [hu] at h
    have hpos : 0 < planned.length := findUsedDataSources_pos hu hop
    by_cases h1 : planned.length = 1
    · rw [if_pos h1] at h
      rw [← Except.ok.inj h]
      exact hpos
    · rw [if_neg h1] at h
      cases fuel with
      | zero =>
        rw [← Except.ok.inj h]
        exact hpos
      | succ fuel' =>
        rw [← Except.ok.inj h]
        exact exclusionFold_pos _ hpos

theorem findBestDataSourceSetFuel_nil_op (fuel : Nat)
    (dss : List DataSourceConfiguration) :
    findBestDataSourceSetFuel fuel [] dss = .ok [] := by
  cases fuel with
  | zero =>
    unfold findBestDataSourceSetFuel
    simp [findUsedDataSources_nil]
  | succ fuel' =>
    have hfold := exclusionFold_le_init
      (fun excluded => findBestDataSourceSetFuel fuel' [] (dataSourcesSubset dss excluded))
      [] (List.range dss.length)
    simp only [List.length_nil, Nat.le_zero, List.length_eq_zero] at hfold
    unfold findBestDataSourceSetFuel
    simp [findUsedDataSources_nil, hfold]

theorem findBestDataSourceSetFuel_minimal (fuel : Nat) :
    ∀ (op : List OperationField) (dss : List DataSourceConfiguration),
      dss.length ≤ fuel →
      ∀ S : List DataSourceConfiguration, S.Sublist dss → coversOp S op = true →
      ∀ best, findBestDataSourceSetFuel fuel op dss = .ok best →
      best.length ≤ S.length := by
  induction fuel with
  | zero =>
    intro op dss hlen S hS hc best hbest
    have hdss : dss = [] := List.length_eq_zero.mp (Nat.le_zero.mp hlen)
    subst hdss
    have hS0 : S = [] := List.sublist_nil.mp hS
    subst hS0
    unfold findBestDataSourceSetFuel at hbest
    cases hu : findUsedDataSources op [] with
    | error e => rw [hu] at hbest; exact absurd hbest (by simp)
    | ok planned =>
      simp only [hu] at hbest
      have hple : planned.length ≤ 0 := by
        simpa using findUsedDataSources_length_le hu
      by_cases h1 : planned.length = 1
      · omega
      · rw [if_neg h1] at hbest
        have hb : best = planned := (Except.ok.inj hbest).symm
        subst hb
        simp only [List.length_nil]
        omega
  | succ fuel' ih =>
    intro op dss hlen S hS hc best hbest
    by_cases hop : op = []
    · subst hop
      rw [findBestDataSourceSetFuel_nil_op] at hbest
      have hb : best = [] := (Except.ok.inj hbest).symm
      simp [hb]
    · have hcL : coversOp dss op = true := coversOp_mono hS hc
      obtain ⟨planned, hp⟩ := (findUsedDataSources_ok_iff op dss).mpr hcL
      unfold findBestDataSourceSetFuel at hbest
      simp only [hp] at hbest
      by_cases hSL : S = dss
      · have hple : planned.length ≤ dss.length := findUsedDataSources_length_le hp
        rw [hSL]
        by_cases h1 : planned.length = 1
        · rw [if_pos h1] at hbest
          have hb : best = planned := (Except.ok.inj hbest).symm
          subst hb
          omega
        · rw [if_neg h1] at hbest
          have hb : best = exclusionFold
              (fun excluded => findBestDataSourceSetFuel fuel' op (dataSourcesSubset dss excluded))
              planned (List.range dss.length) := (Except.ok.inj hbest).symm
          have hfl := exclusionFold_le_init
            (fun excluded => findBestDataSourceSetFuel fuel' op (dataSourcesSubset dss excluded))
            planned (List.range dss.length)
          subst hb
          omega
      · obtain ⟨i, hi, hSi⟩ := sublist_eraseIdx_of_ne hS hSL
        rw [← dataSourcesSubset_eq_eraseIdx] at hSi
        have hsub_len : (dataSourcesSubset dss i).length ≤ fuel' := by
          rw [dataSourcesSubset_length hi]
          omega
        have hcov_i : coversOp (dataSourcesSubset dss i) op = true := coversOp_mono hSi hc
        obtain ⟨r, hr⟩ := findBestDataSourceSetFuel_ok fuel' op (dataSourcesSubset dss i) hcov_i
        have hrS : r.length ≤ S.length :=
          ih op (dataSourcesSubset dss i) hsub_len S hSi hc r hr
        have hrpos : 0 < r.length := findBestDataSourceSetFuel_pos hop hr
        by_cases h1 : planned.length = 1
        · rw [if_pos h1] at hbest
          have hb : best = planned := (Except.ok.inj hbest).symm
          subst hb
          have hSpos : 0 < S.length := coversOp_pos hc hop
          omega
        · rw [if_neg h1] at hbest
          have hb : best = exclusionFold
              (fun excluded => findBestDataSourceSetFuel fuel' op (dataSourcesSubset dss excluded))
              planned (List.range dss.length) := (Except.ok.inj hbest).symm
          have hmem : i ∈ List.range dss.length := List.mem_range.mpr hi
          have hle := @exclusionFold_le_ok
            (fun excluded => findBestDataSourceSetFuel fuel' op (dataSourcesSubset dss excluded))
            planned (List.range dss.length) i r hmem hr hrpos
          subst hb
          omega

/-! ## Tie-breaking: the search returns the first minimum-size candidate -/

theorem findBestDataSourceSet_nil_op (dss : List DataSourceConfiguration) :
    findBestDataSourceSet [] dss = .ok [] :=
  findBestDataSourceSetFuel_nil_op _ _

theorem findBestDataSourceSet_pos {op : List OperationField}
    {dss : List DataSourceConfiguration} {r : List UsedDataSourceConfiguration}
    (hop : op ≠ []) (h : findBestDataSourceSet op dss = .ok r) : 0 < r.length :=
  findBestDataSourceSetFuel_pos hop h

theorem op_ne_nil_of_planned_pos {op : List OperationField}
    {dss : List DataSourceConfiguration} {planned : List UsedDataSourceConfiguration}
    (hp : findUsedDataSources op dss = .ok planned) (hpos : 0 < planned.length) :
    op ≠ [] := by
  intro h
  subst h
  rw [findUsedDataSources_nil] at hp
  have hnil : planned = [] := (Except.ok.inj hp).symm
  rw [hnil] at hpos
  exact absurd hpos (by simp)

theorem exclusionFold_congr
    {g₁ g₂ : Nat → Except ErrOperationFieldNotResolved (List UsedDataSourceConfiguration)}
    (init : List UsedDataSourceConfiguration) {l : List Nat}
    (h : ∀ x ∈ l, g₁ x = g₂ x) :
    exclusionFold g₁ init l = exclusionFold g₂ init l := by
  induction l generalizing init with
  | nil => rfl
  | cons x xs ih =>
    rw [exclusionFold_cons, exclusionFold_cons, h x (List.mem_cons_self x xs)]
    exact ih _ (fun y hy => h y (List.mem_cons_of_mem x hy))

/-- Unfolding of `findBestDataSourceSet` in terms of itself on the subsets: the
budget of a subset call is exactly that subset's length. -/
theorem findBestDataSourceSet_unfold (op : List OperationField)
    (dss : List DataSourceConfiguration) :
    findBestDataSourceSet op dss =
      match findUsedDataSources op dss with
      | .error e => .error e
      | .ok planned =>
        if planned.length = 1 then .ok planned
        else .ok (exclusionFold
            (fun excluded => findBestDataSourceSet op (dataSourcesSubset dss excluded))
            planned (List.range dss.length)) := by
  cases dss with
  | nil =>
    show findBestDataSourceSetFuel 0 op [] = _
    unfold findBestDataSourceSetFuel
    cases hu : findUsedDataSources op [] with
    | error e => simp [hu]
    | ok planned =>
      simp only [hu]
      by_cases h1 : planned.length = 1
      · rw [if_pos h1, if_pos h1]
      · rw [if_neg h1, if_neg h1]
        rfl
  | cons d ds =>
    show findBestDataSourceSetFuel (ds.length + 1) op (d :: ds) = _
    unfold findBestDataSourceSetFuel
    cases hu : findUsedDataSources op (d :: ds) with
    | error e => simp [hu]
    | ok planned =>
      simp only [hu]
      by_cases h1 : planned.length = 1
      · rw [if_pos h1, if_pos h1]
      · rw [if_neg h1, if_neg h1]
        congr 1
        apply exclusionFold_congr
        intro i hi
        have hlt : i < (d :: ds).length := List.mem_range.mp hi
        have hlen : (dataSourcesSubset (d :: ds) i).length = ds.length := by
          rw [dataSourcesSubset_length hlt]
          simp
        show findBestDataSourceSetFuel ds.length op (dataSourcesSubset (d :: ds) i) =
          findBestDataSourceSetFuel (dataSourcesSubset (d :: ds) i).length op
            (dataSourcesSubset (d :: ds) i)
        rw [hlen]

/-- The successful exclusion candidates, in ascending order of excluded index. -/
def exclusionCandidates (op : List OperationField)
    (dss : List DataSourceConfiguration) : List (List UsedDataSourceConfiguration) :=
  (List.range dss.length).filterMap
    (fun i => (findBestDataSourceSet op (dataSourcesSubset dss i)).toOption)

/-- First candidate of minimum length: a later candidate replaces the current
best only when strictly smaller. -/
def firstShortest (first : List UsedDataSourceConfiguration)
    (rest : List (List UsedDataSourceConfiguration)) : List UsedDataSourceConfiguration :=
  rest.foldl (fun best c => if c.length < best.length then c else best) first

theorem firstShortest_cons (first c : List UsedDataSourceConfiguration)
    (cs : List (List UsedDataSourceConfiguration)) :
    firstShortest first (c :: cs) =
      firstShortest (if c.length < first.length then c else first) cs := rfl

theorem firstShortest_no_shorter {first : List UsedDataSourceConfiguration}
    {rest : List (List UsedDataSourceConfiguration)}
    (h : ∀ c ∈ rest, first.length ≤ c.length) : firstShortest first rest = first := by
  induction rest with
  | nil => rfl
  | cons c cs ih =>
    rw [firstShortest_cons,
      if_neg (Nat.not_lt.mpr (h c (List.mem_cons_self c cs)))]
    exact ih (fun x hx => h x (List.mem_cons_of_mem c hx))

theorem exclusionFold_eq_foldl_toOption
    (g : Nat → Except ErrOperationFieldNotResolved (List UsedDataSourceConfiguration))
    (init : List UsedDataSourceConfiguration) (l : List Nat) :
    exclusionFold g init l =
      (l.filterMap (fun i => (g i).toOption)).foldl
        (fun best c => shorterCandidate best c) init := by
  induction l generalizing init with
  | nil => rfl
  | cons x xs ih =>
    rw [exclusionFold_cons]
    cases hg : g x with
    | error e =>
      rw [List.filterMap_cons]
      simp only [hg, Except.toOption]
      exact ih init
    | ok r =>
      rw [List.filterMap_cons]
      simp only [hg, Except.toOption]
      exact ih _

theorem foldl_shorter_eq_firstShortest
    {rest : List (List UsedDataSourceConfiguration)}
    (h : ∀ c ∈ rest, 0 < c.length) (first : List UsedDataSourceConfiguration) :
    rest.foldl (fun best c => shorterCandidate best c) first = firstShortest first rest := by
  induction rest generalizing first with
  | nil => rfl
  | cons c cs ih =>
    have hc := h c (List.mem_cons_self c cs)
    have heq : shorterCandidate first c = if c.length < first.length then c else first := by
      unfold shorterCandidate
      by_cases hlt : c.length < first.length
      · rw [if_pos ⟨hc, hlt⟩, if_pos hlt]
      · rw [if_neg (fun hand => hlt hand.2), if_neg hlt]
    rw [List.foldl_cons, firstShortest_cons, heq]
    exact ih (fun x hx => h x (List.mem_cons_of_mem c hx)) _

theorem mem_exclusionCandidates {op : List OperationField}
    {dss : List DataSourceConfiguration} {c : List UsedDataSourceConfiguration}
    (hc : c ∈ exclusionCandidates op dss) :
    ∃ i, i < dss.length ∧ findBestDataSourceSet op (dataSourcesSubset dss i) = .ok c := by
  obtain ⟨i, hi, hval⟩ := List.mem_filterMap.mp hc
  refine ⟨i, List.mem_range.mp hi, ?_⟩
  cases hcase : findBestDataSourceSet op (dataSourcesSubset dss i) with
  | error e => rw [hcase] at hval; exact absurd hval (by simp [Except.toOption])
  | ok r =>
    rw [hcase] at hval
    simp only [Except.toOption] at hval
    rw [Option.some.inj hval]

/-- The search result is the first minimum-length entry of the candidate
sequence: the top-level covering set first, then the successful exclusion
candidates in ascending index order. -/
theorem findBestDataSourceSet_firstShortest (op : List OperationField)
    (dss : List DataSourceConfiguration)
    (planned best : List UsedDataSourceConfiguration)
    (hp : findUsedDataSources op dss = .ok planned)
    (hbest : findBestDataSourceSet op dss = .ok best) :
    best = firstShortest planned (exclusionCandidates op dss) := by
  rw [findBestDataSourceSet_unfold] at hbest
  simp only [hp] at hbest
  by_cases hop : op = []
  · subst hop
    have hpe : planned = [] := by
      rw [findUsedDataSources_nil] at hp
      exact (Except.ok.inj hp).symm
    subst hpe
    rw [if_neg (by simp)] at hbest
    have hb : best = exclusionFold
        (fun excluded => findBestDataSourceSet [] (dataSourcesSubset dss excluded))
        [] (List.range dss.length) := (Except.ok.inj hbest).symm
    have hlen := exclusionFold_le_init
      (fun excluded => findBestDataSourceSet [] (dataSourcesSubset dss excluded))
      [] (List.range dss.length)
    simp only [List.length_nil, Nat.le_zero, List.length_eq_zero] at hlen
    rw [hb, hlen, firstShortest_no_shorter (fun c _ => Nat.zero_le _)]
  · have hcandpos : ∀ c ∈ exclusionCandidates op dss, 0 < c.length := by
      intro c hc
      obtain ⟨i, hi, hok⟩ := mem_exclusionCandidates hc
      exact findBestDataSourceSet_pos hop hok
    by_cases h1 : planned.length = 1
    · rw [if_pos h1] at hbest
      have hb : best = planned := (Except.ok.inj hbest).symm
      rw [hb, firstShortest_no_shorter (fun c hc => by
        have := hcandpos c hc
        omega)]
    · rw [if_neg h1] at hbest
      have hb : best = exclusionFold
          (fun excluded => findBestDataSourceSet op (dataSourcesSubset dss excluded))
          planned (List.range dss.length) := (Except.ok.inj hbest).symm
      rw [hb, exclusionFold_eq_foldl_toOption]
      exact foldl_shorter_eq_firstShortest hcandpos planned

/-! ## Planner orchestration

`operationreport.Report` collects external and internal errors; the walkers and
the configuration visitor are outside this source excerpt, so their effect on
the report is embedded as the list of errors they append (a `ReportDelta`), and
the configuration visitor as an opaque state machine (`ConfigVisitorModel`). -/

inductive ExternalError
  | requiredOperationNameMissing
  | operationNotFound (name : String)
  | fieldNotResolvable (typeName fieldName : String)
  | documentError (tag : String)
deriving DecidableEq, Repr

inductive InternalError
  | nonConvergence (missingPaths : List String)
  | registration (message : String)
  | other (tag : String)
deriving DecidableEq, Repr

structure Report where
  externalErrors : List ExternalError
  internalErrors : List InternalError
deriving DecidableEq, Repr

def Report.hasErrors (r : Report) : Bool :=
  !r.externalErrors.isEmpty || !r.internalErrors.isEmpty

def Report.addExternalError (r : Report) (e : ExternalError) : Report :=
  { r with externalErrors := r.externalErrors ++ [e] }

def Report.addInternalError (r : Report) (e : InternalError) : Report :=
  { r with internalErrors := r.internalErrors ++ [e] }

/-- Errors appended to the report by an out-of-scope collaborator (a walker
pass, the data-source filter, the prepare-operation normalization). -/
structure ReportDelta where
  externalErrors : List ExternalError
  internalErrors : List InternalError
deriving DecidableEq, Repr

def ReportDelta.isEmpty (d : ReportDelta) : Bool :=
  d.externalErrors.isEmpty && d.internalErrors.isEmpty

def Report.apply (r : Report) (d : ReportDelta) : Report :=
  ⟨r.externalErrors ++ d.externalErrors, r.internalErrors ++ d.internalErrors⟩

def emptyReport : Report := ⟨[], []⟩

/-- Go's `strings.TrimSpace`, embedded over the character list: drop leading
and trailing whitespace. -/
def trimSpace (s : String) : String :=
  ⟨((s.data.dropWhile Char.isWhitespace).reverse.dropWhile Char.isWhitespace).reverse⟩

/-- Embeds `Planner.selectOperation`.  The operation document is embedded as the list
of its operation definitions' names, in order: `NumOfOperationDefinitions` is
the length, `OperationDefinitionNameString(0)` the head, and
`OperationNameExists` membership.  Returns the updated report and the selected
operation name (assigned to the visitors when selection succeeds). -/
def selectOperation (operationNames : List String) (operationName : String)
    (report : Report) : Report × Option String :=
  let numOfOperations := operationNames.length
  let trimmed := trimSpace operationName
  if trimmed = "" ∧ numOfOperations > 1 then
    (report.addExternalError .requiredOperationNameMissing, none)
  else
    let selected := if trimmed = "" ∧ numOfOperations = 1 then operationNames.headD ("") else trimmed
    if ¬operationNames.contains selected then
      (report.addExternalError (.operationNotFound selected), none)
    else
      (report, some selected)

/-- Opaque model of the configuration visitor (`configurationVisitor` is not
part of this source excerpt): the errors of the initial
`dsFilter.FilterDataSources` call, the per-pass walk effect (with the
suggestion refresh of secondary runs folded into the pass), the revisit
condition and the missing-path tracker. -/
structure ConfigVisitorModel (σ : Type) where
  filterDelta : ReportDelta
  initialState : σ
  walk : σ → σ × ReportDelta
  shouldRevisit : σ → Bool
  missingPathTracker : σ → List String

/-- The secondary-pass loop of `Planner.findPlanningPaths`.  `remaining` counts
the loop iterations still allowed before the `i > 100` check fires (the source
counts `i` upward from 1 and errors right after the pass that brings `i` to
101, so the loop body runs at most 100 times); the third component of the
result is the number of secondary passes performed. -/
def revisitLoop {σ : Type} (vm : ConfigVisitorModel σ) :
    Nat → σ → Report → Report × Option σ × Nat
  | remaining, s, r =>
    if vm.shouldRevisit s then
      let w := vm.walk s
      let r' := r.apply w.2
      if r'.hasErrors then (r', none, 1)
      else
        match remaining with
        | 0 => (r'.addInternalError (.nonConvergence (vm.missingPathTracker w.1)), none, 1)
        | remaining' + 1 =>
          let q := revisitLoop vm remaining' w.1 r'
          (q.1, q.2.1, q.2.2 + 1)
    else (r, some s, 0)

/-- Embeds `Planner.findPlanningPaths`: initial data-source filtering, initial
configuration walk, then at most 100 secondary passes. -/
def findPlanningPathsModel {σ : Type} (vm : ConfigVisitorModel σ) (report : Report) :
    Report × Option σ × Nat :=
  let r0 := report.apply vm.filterDelta
  if r0.hasErrors then (r0, none, 0)
  else
    let w := vm.walk vm.initialState
    let r1 := r0.apply w.2
    if r1.hasErrors then (r1, none, 0)
    else revisitLoop vm 99 w.1 r1

/-- The visitor state after `n` further walks. -/
def walkIterate {σ : Type} (vm : ConfigVisitorModel σ) : Nat → σ → σ
  | 0, s => s
  | n + 1, s => walkIterate vm n (vm.walk s).1

inductive PlanStage
  | selectOperationStage
  | prepareOperationStage
  | findPlanningPathsStage
  | registerPlannersStage
  | planningWalkStage
deriving DecidableEq, Repr

/-- The out-of-scope collaborators of one `Plan` call: the configuration
visitor, the prepare-operation walker's errors, the per-planner `Register`
results (in planner order), the final planning walk's errors, and the plan the
planning visitor builds (`p.planningVisitor.plan`, possibly absent). -/
structure PlanEnv (σ π : Type) where
  vm : ConfigVisitorModel σ
  prepareDelta : ReportDelta
  registerResults : List (Option String)
  planningWalkDelta : ReportDelta
  visitorPlan : Option π

/-- The registration loop stops at the first planner whose `Register` errors. -/
def firstRegisterError : List (Option String) → Option String
  | [] => none
  | some e :: _ => some e
  | none :: rest => firstRegisterError rest

def allPlanStages : List PlanStage :=
  [.selectOperationStage, .prepareOperationStage, .findPlanningPathsStage,
   .registerPlannersStage, .planningWalkStage]

/-- Embeds `Planner.Plan`: run the stages in order, checking the report after each;
returns the plan (nil on failure), the final report, and the stages reached. -/
def planModel {σ π : Type} (env : PlanEnv σ π) (operationNames : List String)
    (operationName : String) : Option π × Report × List PlanStage :=
  let sel := selectOperation operationNames operationName emptyReport
  if sel.1.hasErrors then (none, sel.1, [.selectOperationStage])
  else
    let r2 := sel.1.apply env.prepareDelta
    if r2.hasErrors then (none, r2, [.selectOperationStage, .prepareOperationStage])
    else
      let fp := findPlanningPathsModel env.vm r2
      if fp.1.hasErrors then
        (none, fp.1,
          [.selectOperationStage, .prepareOperationStage, .findPlanningPathsStage])
      else
        match firstRegisterError env.registerResults with
        | some msg =>
          (none, fp.1.addInternalError (.registration msg),
            [.selectOperationStage, .prepareOperationStage, .findPlanningPathsStage,
             .registerPlannersStage])
        | none =>
          let r4 := fp.1.apply env.planningWalkDelta
          if r4.hasErrors then (none, r4, allPlanStages)
          else (env.visitorPlan, r4, allPlanStages)

/-- The duplicate-id scan of `NewPlanner`: walk the data sources in order,
remembering seen ids, and stop at the first repeated one. -/
def checkDuplicateIds : List String → List String → Option String
  | [], _ => none
  | i :: rest, seen =>
    if seen.contains i then some i else checkDuplicateIds rest (i :: seen)

/-- Embeds `NewPlanner`: reject configurations with a duplicated data-source id (the
walker and visitor construction that follows is out of scope and cannot
fail). -/
def newPlanner (dataSources : List DataSourceConfiguration) : Except String Unit :=
  match checkDuplicateIds (dataSources.map (fun ds => ds.id)) [] with
  | some i => .error ("duplicate datasource id: " ++ i)
  | none => .ok ()

/-! ## Fragment-path pruning -/

/-- A planner path: its path string and whether it was added for a
fragment-type match rather than for a concrete field. -/
structure PathConfiguration where
  path : String
  isFragmentPath : Bool
deriving DecidableEq, Repr

/-- Modelled from the spec: a path is confirmed once at least one concrete
field (not just a bare fragment entry) was appended underneath it, that is,
some non-fragment path of the planner strictly extends it. -/
def pathConfirmed (p : PathConfiguration) (paths : List PathConfiguration) : Bool :=
  paths.any (fun q =>
    !q.isFragmentPath && p.path.data.isPrefixOf q.path.data && p.path.data != q.path.data)

/-- Modelled from the spec: `PlannerConfiguration.RemoveLeafFragmentPaths` (the
method is not part of this source excerpt) removes every path opened for a
fragment-type match that never received a confirmed field selection underneath
it, and reports whether any path was removed. -/
def removeLeafFragmentPaths (paths : List PathConfiguration) :
    List PathConfiguration × Bool :=
  let kept := paths.filter (fun p => !(p.isFragmentPath && !pathConfirmed p paths))
  (kept, kept.length != paths.length)

/-- Embeds `Planner.removeUnnecessaryFragmentPaths`: prune every planner, reporting
whether any pruning occurred (the flag is set, never cleared). -/
def removeUnnecessaryFragmentPaths (planners : List (List PathConfiguration)) :
    List (List PathConfiguration) × Bool :=
  planners.foldl (fun acc plannerPaths =>
    let r := removeLeafFragmentPaths plannerPaths
    (acc.1 ++ [r.1], acc.2 || r.2)) ([], false)

/-! ## Lemmas about the report and the revisit loop -/

theorem Report.apply_isEmpty (r : Report) {d : ReportDelta} (hd : d.isEmpty = true) :
    r.apply d = r := by
  unfold ReportDelta.isEmpty at hd
  rw [Bool.and_eq_true] at hd
  obtain ⟨he, hi⟩ := hd
  rw [List.isEmpty_iff] at he hi
  simp [Report.apply, he, hi]

theorem Report.hasErrors_addInternalError (r : Report) (e : InternalError) :
    (r.addInternalError e).hasErrors = true := by
  simp [Report.addInternalError, Report.hasErrors]

theorem Report.hasErrors_addExternalError (r : Report) (e : ExternalError) :
    (r.addExternalError e).hasErrors = true := by
  simp [Report.addExternalError, Report.hasErrors]

theorem Report.hasErrors_apply_external (r : Report) {d : ReportDelta}
    (hd : d.externalErrors ≠ []) : (r.apply d).hasErrors = true := by
  simp only [Report.apply, Report.hasErrors, Bool.or_eq_true, Bool.not_eq_true',
    List.isEmpty_iff]
  left
  simp [hd]

theorem walkIterate_succ {σ : Type} (vm : ConfigVisitorModel σ) (n : Nat) (s : σ) :
    walkIterate vm (n + 1) s = walkIterate vm n (vm.walk s).1 := rfl

/-- The loop performs at most one more secondary pass than the remaining
budget allows. -/
theorem revisitLoop_passes_le {σ : Type} (vm : ConfigVisitorModel σ) :
    ∀ (remaining : Nat) (s : σ) (r : Report),
      (revisitLoop vm remaining s r).2.2 ≤ remaining + 1 := by
  intro remaining
  induction remaining with
  | zero =>
    intro s r
    unfold revisitLoop
    dsimp only
    split
    · split
      · exact Nat.le_refl _
      · exact Nat.le_refl _
    · exact Nat.zero_le _
  | succ remaining' ih =>
    intro s r
    unfold revisitLoop
    dsimp only
    split
    · split
      · dsimp only
        omega
      · have := ih (vm.walk s).1 (r.apply (vm.walk s).2)
        dsimp only
        omega
    · exact Nat.zero_le _

/-- When the revisit condition holds at every checkpoint and no pass reports
errors, the loop exhausts its budget: it performs exactly `remaining + 1`
passes and then fails with the non-convergence error listing the tracker's
missing paths. -/
theorem revisitLoop_nonConvergence {σ : Type} (vm : ConfigVisitorModel σ) :
    ∀ (n : Nat) (s : σ) (r : Report),
      (∀ k, k ≤ n → vm.shouldRevisit (walkIterate vm k s) = true) →
      (∀ k, k ≤ n → ((vm.walk (walkIterate vm k s)).2).isEmpty = true) →
      r.hasErrors = false →
      revisitLoop vm n s r =
        (r.addInternalError
            (.nonConvergence (vm.missingPathTracker (walkIterate vm (n + 1) s))),
          none, n + 1) := by
  intro n
  induction n with
  | zero =>
    intro s r hrev hdelta hr
    have h0 : vm.shouldRevisit s = true := hrev 0 (Nat.le_refl 0)
    have hd0 : (vm.walk s).2.isEmpty = true := hdelta 0 (Nat.le_refl 0)
    unfold revisitLoop
    dsimp only
    rw [if_pos h0, Report.apply_isEmpty r hd0, if_neg (by simp [hr])]
    rfl
  | succ n' ih =>
    intro s r hrev hdelta hr
    have h0 : vm.shouldRevisit s = true := hrev 0 (Nat.zero_le _)
    have hd0 : (vm.walk s).2.isEmpty = true := hdelta 0 (Nat.zero_le _)
    unfold revisitLoop
    dsimp only
    rw [if_pos h0, Report.apply_isEmpty r hd0, if_neg (by simp [hr])]
    have hrec := ih (vm.walk s).1 r
      (fun k hk => hrev (k + 1) (Nat.succ_le_succ hk))
      (fun k hk => hdelta (k + 1) (Nat.succ_le_succ hk))
      hr
    rw [hrec]
    rfl

/-- Secondary passes in `findPlanningPaths` never exceed 100. -/
theorem findPlanningPathsModel_passes_le {σ : Type} (vm : ConfigVisitorModel σ)
    (r : Report) : (findPlanningPathsModel vm r).2.2 ≤ 100 := by
  unfold findPlanningPathsModel
  dsimp only
  split
  · exact Nat.zero_le _
  · split
    · exact Nat.zero_le _
    · exact revisitLoop_passes_le vm 99 _ _

/-! ## Lemmas about the duplicate-id scan -/

theorem checkDuplicateIds_none_iff : ∀ (ids seen : List String),
    checkDuplicateIds ids seen = none ↔ ids.Nodup ∧ ∀ a ∈ ids, a ∉ seen := by
  intro ids
  induction ids with
  | nil =>
    intro seen
    simp [checkDuplicateIds]
  | cons i rest ih =>
    intro seen
    unfold checkDuplicateIds
    by_cases hc : seen.contains i = true
    · rw [if_pos hc]
      have hmem : i ∈ seen := by simpa using hc
      constructor
      · intro h
        exact absurd h (by simp)
      · rintro ⟨-, hall⟩
        exact absurd hmem (hall i (List.mem_cons_self i rest))
    · rw [if_neg hc]
      have hns : i ∉ seen := by simpa using hc
      rw [ih (i :: seen)]
      constructor
      · rintro ⟨hnd, hall⟩
        refine ⟨List.nodup_cons.mpr ⟨?_, hnd⟩, ?_⟩
        · intro hmem
          exact (hall i hmem) (List.mem_cons_self i seen)
        · intro a ha
          rcases List.mem_cons.mp ha with rfl | hs
          · exact hns
          · intro hseen
            exact (hall a hs) (List.mem_cons_of_mem i hseen)
      · rintro ⟨hnd, hall⟩
        rw [List.nodup_cons] at hnd
        refine ⟨hnd.2, ?_⟩
        intro a ha hmem
        rcases List.mem_cons.mp hmem with rfl | hs
        · exact hnd.1 ha
        · exact (hall a (List.mem_cons_of_mem i ha)) hs

theorem checkDuplicateIds_some : ∀ (ids seen : List String) (i : String),
    checkDuplicateIds ids seen = some i →
    i ∈ ids ∧ (i ∈ seen ∨ 2 ≤ ids.count i) := by
  intro ids
  induction ids with
  | nil =>
    intro seen i h
    exact absurd h (by simp [checkDuplicateIds])
  | cons a rest ih =>
    intro seen i h
    unfold checkDuplicateIds at h
    by_cases hc : seen.contains a = true
    · rw [if_pos hc] at h
      have hia : i = a := (Option.some.inj h).symm
      subst hia
      exact ⟨List.mem_cons_self i rest, Or.inl (by simpa using hc)⟩
    · rw [if_neg hc] at h
      obtain ⟨hmem, hrest⟩ := ih (a :: seen) i h
      refine ⟨List.mem_cons_of_mem a hmem, ?_⟩
      rcases hrest with hseen | hcount
      · rcases List.mem_cons.mp hseen with rfl | hs
        · right
          rw [List.count_cons_self]
          have hpos : 0 < rest.count i := List.count_pos_iff.mpr hmem
          omega
        · exact Or.inl hs
      · right
        have hle := List.count_le_count_cons i a rest
        omega

/-! ## Lemmas about fragment-path pruning -/

theorem removeUnnecessaryFragmentPaths_eq (planners : List (List PathConfiguration)) :
    removeUnnecessaryFragmentPaths planners =
      (planners.map (fun ps => (removeLeafFragmentPaths ps).1),
       planners.any (fun ps => (removeLeafFragmentPaths ps).2)) := by
  suffices h : ∀ (acc : List (List PathConfiguration)) (b : Bool),
      planners.foldl (fun acc plannerPaths =>
        let r := removeLeafFragmentPaths plannerPaths
        (acc.1 ++ [r.1], acc.2 || r.2)) (acc, b) =
      (acc ++ planners.map (fun ps => (removeLeafFragmentPaths ps).1),
       b || planners.any (fun ps => (removeLeafFragmentPaths ps).2)) by
    have hinst := h [] false
    simpa [removeUnnecessaryFragmentPaths] using hinst
  induction planners with
  | nil =>
    intro acc b
    simp
  | cons ps rest ih =>
    intro acc b
    rw [List.foldl_cons]
    dsimp only
    rw [ih]
    simp [Bool.or_assoc]

theorem mem_removeLeafFragmentPaths (ps : List PathConfiguration) (p : PathConfiguration) :
    p ∈ (removeLeafFragmentPaths ps).1 ↔
      p ∈ ps ∧ (p.isFragmentPath = true → pathConfirmed p ps = true) := by
  unfold removeLeafFragmentPaths
  dsimp only
  rw [List.mem_filter]
  constructor
  · rintro ⟨hmem, hcond⟩
    refine ⟨hmem, ?_⟩
    intro hfrag
    by_contra hnc
    rw [hfrag] at hcond
    simp at hcond
    exact hnc hcond
  · rintro ⟨hmem, hcond⟩
    refine ⟨hmem, ?_⟩
    by_cases hfrag : p.isFragmentPath = true
    · rw [hfrag]
      simp [hcond hfrag]
    · simp at hfrag
      simp [hfrag]

theorem removeLeafFragmentPaths_flag (ps : List PathConfiguration) :
    (removeLeafFragmentPaths ps).2 = true ↔ (removeLeafFragmentPaths ps).1 ≠ ps := by
  unfold removeLeafFragmentPaths
  dsimp only
  rw [bne_iff_ne]
  constructor
  · intro hlen heq
    exact hlen (congrArg List.length heq)
  · intro hne hlen
    exact hne (List.Sublist.eq_of_length (List.filter_sublist ps) hlen)

/-! ## Spec-modelled connection of the selection failure to planning -/

/-- Modelled from the spec: the planning-path search's initial data-source
filtering performs the data-source selection; a field-not-resolvable failure of
the selection is reported as an external error naming the type and field
(`NewDataSourceFilter`'s `FilterDataSources` is not part of this source
excerpt). -/
def selectionFilterDelta (op : List OperationField)
    (dss : List DataSourceConfiguration) : ReportDelta :=
  match findBestDataSourceSet op dss with
  | .error e => ⟨[.fieldNotResolvable e.typeName e.fieldName], []⟩
  | .ok _ => ⟨[], []⟩

/-! ## Unresolvable fields do not disturb the recorded used nodes -/

theorem recordUsedNode_no_match {l : List UsedDataSourceConfiguration} {t f : String}
    (h : l.any (fun u => u.dataSource.resolves t f) = false) :
    (recordUsedNode l t f).1 = l := by
  induction l with
  | nil => rfl
  | cons u rest ih =>
    rw [List.any_cons, Bool.or_eq_false_iff] at h
    rw [recordUsedNode, if_neg (by simp [h.1])]
    dsimp only
    rw [ih h.2]

theorem walkFields_dataSources_congr (op : List OperationField) :
    ∀ (st₁ st₂ : FindUsedState), st₁.dataSources = st₂.dataSources →
      (walkFields op st₁).dataSources = (walkFields op st₂).dataSources := by
  induction op with
  | nil => intro st₁ st₂ h; exact h
  | cons f rest ih =>
    intro st₁ st₂ h
    rw [walkFields, walkFields]
    apply ih
    rw [enterField_dataSources, enterField_dataSources, h]

theorem walkFields_dataSources_filter (op : List OperationField) (st : FindUsedState) :
    (walkFields op st).dataSources =
      (walkFields (op.filter (fun x => resolvableBy st.sources x)) st).dataSources := by
  induction op generalizing st with
  | nil => rfl
  | cons f rest ih =>
    by_cases h : resolvableBy st.sources f = true
    · rw [walkFields, List.filter_cons, if_pos h, walkFields]
      rw [ih (enterField st f.1 f.2), enterField_sources]
    · have hb : resolvableBy st.sources f = false := by
        revert h; cases resolvableBy st.sources f <;> simp
      rw [walkFields, List.filter_cons, if_neg (by simp [hb])]
      have hsame : (enterField st f.1 f.2).dataSources = st.dataSources := by
        rw [enterField_dataSources]
        apply recordUsedNode_no_match
        rw [any_resolves_eq_resolvableBy]
        exact hb
      rw [walkFields_dataSources_congr rest _ st hsame]
      exact ih st

/-! ## Non-convergence of the planning-path search -/

theorem findPlanningPathsModel_nonConvergence {σ : Type} (vm : ConfigVisitorModel σ)
    (r : Report)
    (hfilter : vm.filterDelta.isEmpty = true)
    (hr : r.hasErrors = false)
    (hinit : (vm.walk vm.initialState).2.isEmpty = true)
    (hrev : ∀ k, k ≤ 99 →
      vm.shouldRevisit (walkIterate vm k (vm.walk vm.initialState).1) = true)
    (hdelta : ∀ k, k ≤ 99 →
      (vm.walk (walkIterate vm k (vm.walk vm.initialState).1)).2.isEmpty = true) :
    findPlanningPathsModel vm r =
      (r.addInternalError (.nonConvergence
          (vm.missingPathTracker (walkIterate vm 100 (vm.walk vm.initialState).1))),
        none, 100) := by
  unfold findPlanningPathsModel
  dsimp only
  rw [Report.apply_isEmpty r hfilter]
  rw [if_neg (by simp [hr])]
  rw [Report.apply_isEmpty r hinit]
  rw [if_neg (by simp [hr])]
  exact revisitLoop_nonConvergence vm 99 _ r hrev hdelta hr

/-- Shows `Plan` returns nil whenever the configuration visitor's initial
data-source filtering reports an external error. -/
theorem planModel_none_of_filter_errors {σ π : Type} (env : PlanEnv σ π)
    (operationNames : List String) (operationName : String)
    (hext : env.vm.filterDelta.externalErrors ≠ []) :
    (planModel env operationNames operationName).1 = none := by
  unfold planModel
  dsimp only
  split
  · rfl
  · split
    · rfl
    · have hfp : (findPlanningPathsModel env.vm
          ((selectOperation operationNames operationName emptyReport).1.apply
            env.prepareDelta)).1.hasErrors = true := by
        unfold findPlanningPathsModel
        dsimp only
        rw [if_pos (Report.hasErrors_apply_external _ hext)]
        exact Report.hasErrors_apply_external _ hext
      rw [if_pos hfp]

/-! ## Claims -/

/-- C1: for every operation and data-source list in which every referenced
field is resolvable by at least one configured data source, the
used-data-source set returned by `findBestDataSourceSet` is of minimum
cardinality: there exists no strictly smaller subset of the configured data
sources that still resolves every field of the operation. -/
theorem claim_C1_minimal_cover (op : List OperationField)
    (dss : List DataSourceConfiguration) (hcov : coversOp dss op = true) :
    ∃ best, findBestDataSourceSet op dss = .ok best ∧
      ¬∃ S : List DataSourceConfiguration,
        S.Sublist dss ∧ coversOp S op = true ∧ S.length < best.length := by
  obtain ⟨best, hbest⟩ := findBestDataSourceSetFuel_ok dss.length op dss hcov
  refine ⟨best, hbest, ?_⟩
  rintro ⟨S, hS, hc, hlt⟩
  have hmin := findBestDataSourceSetFuel_minimal dss.length op dss
    (Nat.le_refl _) S hS hc best hbest
  omega

theorem claim_C1_witness :
    ∃ best, findBestDataSourceSet [("Query", "a"), ("Query", "b")]
        [dsAlpha, dsBeta] = .ok best ∧
      ¬∃ S : List DataSourceConfiguration,
        S.Sublist [dsAlpha, dsBeta] ∧
        coversOp S [("Query", "a"), ("Query", "b")] = true ∧
        S.length < best.length :=
  claim_C1_minimal_cover [("Query", "a"), ("Query", "b")] [dsAlpha, dsBeta] (by decide)

/-- C5: when several covering subsets of equal minimum size exist, the result
of `findBestDataSourceSet` is determined purely by exclusion order: it equals
the first minimum-length entry of the candidate sequence, which starts with the
full-list covering set and continues with the successful recursive results for
each excluded index in ascending order; a candidate replaces the current best
only when strictly smaller, so the first minimum-size candidate wins, and the
selection depends only on the order of the configured data-source list, not on
any cost model. -/
theorem claim_C5_tie_breaking (op : List OperationField)
    (dss : List DataSourceConfiguration)
    (planned best : List UsedDataSourceConfiguration)
    (hp : findUsedDataSources op dss = .ok planned)
    (hbest : findBestDataSourceSet op dss = .ok best) :
    best = firstShortest planned (exclusionCandidates op dss) :=
  findBestDataSourceSet_firstShortest op dss planned best hp hbest

theorem claim_C5_witness :
    ([⟨dsBeta, [⟨"Query", "a"⟩, ⟨"Query", "b"⟩]⟩] : List UsedDataSourceConfiguration) =
      firstShortest [⟨dsAlpha, [⟨"Query", "a"⟩]⟩, ⟨dsGamma, [⟨"Query", "b"⟩]⟩]
        (exclusionCandidates [("Query", "a"), ("Query", "b")]
          [dsAlpha, dsGamma, dsBeta]) :=
  claim_C5_tie_breaking [("Query", "a"), ("Query", "b")] [dsAlpha, dsGamma, dsBeta]
    [⟨dsAlpha, [⟨"Query", "a"⟩]⟩, ⟨dsGamma, [⟨"Query", "b"⟩]⟩]
    [⟨dsBeta, [⟨"Query", "a"⟩, ⟨"Query", "b"⟩]⟩]
    (by decide) (by decide)

/-- C2 counterexample: an operation with two fields that no configured data
source resolves.  The selection error names only the second one, so for the
first such field the claim's "a field-not-resolvable error that names exactly
that type name and field name" fails. -/
theorem claim_C2_counterexample :
    (∀ ds ∈ [dsAlpha], ds.resolves ("Query") ("u1") = false) ∧
    (("Query", "u1") ∈ [(("Query", "u1") : OperationField), ("Query", "u2")]) ∧
    findBestDataSourceSet [("Query", "u1"), ("Query", "u2")] [dsAlpha] =
      .error ⟨"Query", "u2"⟩ ∧
    ((⟨"Query", "u2"⟩ : ErrOperationFieldNotResolved) ≠ ⟨"Query", "u1"⟩) := by
  decide

/-- C2 (amended): for every operation containing at least one field whose
(enclosing type name, field name) pair no configured data source resolves, the
data-source selection fails with a field-not-resolvable error naming the last
such field in traversal order (hence exactly that field when it is unique), no
used-data-source set is returned, and planning produces no plan. -/
theorem claim_C2_amended (op : List OperationField)
    (dss : List DataSourceConfiguration) (f : OperationField) (hf : f ∈ op)
    (hunres : resolvableBy dss f = false) :
    ∃ g : OperationField,
      (op.filter (fun x => !resolvableBy dss x)).getLast? = some g ∧
      findBestDataSourceSet op dss = .error ⟨g.1, g.2⟩ ∧
      (∀ used, findBestDataSourceSet op dss ≠ .ok used) ∧
      ∀ (σ π : Type) (env : PlanEnv σ π)
        (operationNames : List String) (operationName : String),
        env.vm.filterDelta = selectionFilterDelta op dss →
        (planModel env operationNames operationName).1 = none := by
  have hmem : f ∈ op.filter (fun x => !resolvableBy dss x) :=
    List.mem_filter.mpr ⟨hf, by simp [hunres]⟩
  cases hgl : (op.filter (fun x => !resolvableBy dss x)).getLast? with
  | none =>
    rw [List.getLast?_eq_none_iff] at hgl
    rw [hgl] at hmem
    exact absurd hmem (List.not_mem_nil f)
  | some g =>
    have herr : findBestDataSourceSet op dss = .error ⟨g.1, g.2⟩ :=
      findBestDataSourceSetFuel_error dss.length op dss ⟨g.1, g.2⟩
        (findUsedDataSources_error op dss g hgl)
    refine ⟨g, rfl, herr, ?_, ?_⟩
    · intro used hok
      rw [herr] at hok
      exact absurd hok (by simp)
    · intro σ π env operationNames operationName henv
      apply planModel_none_of_filter_errors
      rw [henv]
      unfold selectionFilterDelta
      rw [herr]
      simp

theorem claim_C2_amended_witness :
    ∃ g : OperationField,
      (([(("Query", "u1") : OperationField), ("Query", "u2")]).filter
          (fun x => !resolvableBy [dsAlpha] x)).getLast? = some g ∧
      findBestDataSourceSet [("Query", "u1"), ("Query", "u2")] [dsAlpha] =
        .error ⟨g.1, g.2⟩ ∧
      (∀ used, findBestDataSourceSet [("Query", "u1"), ("Query", "u2")] [dsAlpha] ≠
        .ok used) ∧
      ∀ (σ π : Type) (env : PlanEnv σ π)
        (operationNames : List String) (operationName : String),
        env.vm.filterDelta =
          selectionFilterDelta [("Query", "u1"), ("Query", "u2")] [dsAlpha] →
        (planModel env operationNames operationName).1 = none :=
  claim_C2_amended [("Query", "u1"), ("Query", "u2")] [dsAlpha] ("Query", "u1")
    (by decide) (by decide)

/-- C6: every resolvable field of the operation has a UsedNode carrying its
enclosing type name and field name recorded against a covering data source, and
the used-data-source result contains exactly the data sources with at least one
recorded UsedNode (a source with zero used nodes never appears). -/
theorem claim_C6_used_nodes (op : List OperationField)
    (dss : List DataSourceConfiguration) (used : List UsedDataSourceConfiguration)
    (hok : findUsedDataSources op dss = .ok used) :
    (∀ f ∈ op, ∃ u ∈ used,
        u.dataSource.resolves f.1 f.2 = true ∧ (⟨f.1, f.2⟩ : UsedNode) ∈ u.usedNodes) ∧
    (∀ u, u ∈ used ↔
        u ∈ (walkFields op (initState dss)).dataSources ∧ u.usedNodes ≠ []) :=
  ⟨fun _ hf => findUsedDataSources_covered hok hf, mem_findUsedDataSources_ok hok⟩

theorem claim_C6_witness :
    (∀ f ∈ [(("Query", "a") : OperationField), ("Query", "b")],
      ∃ u ∈ [(⟨dsAlpha, [⟨"Query", "a"⟩]⟩ : UsedDataSourceConfiguration),
             ⟨dsGamma, [⟨"Query", "b"⟩]⟩],
        u.dataSource.resolves f.1 f.2 = true ∧ (⟨f.1, f.2⟩ : UsedNode) ∈ u.usedNodes) ∧
    (∀ u, u ∈ [(⟨dsAlpha, [⟨"Query", "a"⟩]⟩ : UsedDataSourceConfiguration),
               ⟨dsGamma, [⟨"Query", "b"⟩]⟩] ↔
        u ∈ (walkFields [("Query", "a"), ("Query", "b")]
              (initState [dsAlpha, dsGamma])).dataSources ∧ u.usedNodes ≠ []) :=
  claim_C6_used_nodes [("Query", "a"), ("Query", "b")] [dsAlpha, dsGamma]
    [⟨dsAlpha, [⟨"Query", "a"⟩]⟩, ⟨dsGamma, [⟨"Query", "b"⟩]⟩] (by decide)

/-- C10: with two or more fields that no configured data source resolves, the
search does not stop at the first such field: every field is still visited (the
used nodes recorded are exactly those of the resolvable fields), each
unresolvable field overwrites the previously recorded error, and the error
finally returned names the last unresolvable field in traversal order. -/
theorem claim_C10_last_error_wins (op : List OperationField)
    (dss : List DataSourceConfiguration)
    (hsome : op.filter (fun x => !resolvableBy dss x) ≠ []) :
    ∃ g : OperationField,
      (op.filter (fun x => !resolvableBy dss x)).getLast? = some g ∧
      findUsedDataSources op dss = .error ⟨g.1, g.2⟩ ∧
      (walkFields op (initState dss)).dataSources =
        (walkFields (op.filter (fun x => resolvableBy dss x))
          (initState dss)).dataSources := by
  cases hgl : (op.filter (fun x => !resolvableBy dss x)).getLast? with
  | none => exact absurd (List.getLast?_eq_none_iff.mp hgl) hsome
  | some g =>
    refine ⟨g, rfl, findUsedDataSources_error op dss g hgl, ?_⟩
    have hfl := walkFields_dataSources_filter op (initState dss)
    rw [initState_sources] at hfl
    exact hfl

theorem claim_C10_witness :
    ∃ g : OperationField,
      (([(("Query", "u1") : OperationField), ("Query", "a"), ("Query", "u2")]).filter
          (fun x => !resolvableBy [dsAlpha] x)).getLast? = some g ∧
      findUsedDataSources [("Query", "u1"), ("Query", "a"), ("Query", "u2")] [dsAlpha] =
        .error ⟨g.1, g.2⟩ ∧
      (walkFields [("Query", "u1"), ("Query", "a"), ("Query", "u2")]
          (initState [dsAlpha])).dataSources =
        (walkFields (([(("Query", "u1") : OperationField), ("Query", "a"),
            ("Query", "u2")]).filter (fun x => resolvableBy [dsAlpha] x))
          (initState [dsAlpha])).dataSources :=
  claim_C10_last_error_wins [("Query", "u1"), ("Query", "a"), ("Query", "u2")]
    [dsAlpha] (by decide)

/-! ## Operation selection lemmas -/

theorem selectOperation_missing_name (operationNames : List String)
    (operationName : String) (r : Report)
    (htrim : trimSpace operationName = "") (hgt : operationNames.length > 1) :
    selectOperation operationNames operationName r =
      (r.addExternalError .requiredOperationNameMissing, none) := by
  unfold selectOperation
  dsimp only
  rw [if_pos ⟨htrim, hgt⟩]

theorem selectOperation_not_found (operationNames : List String)
    (operationName : String) (r : Report)
    (htrim : trimSpace operationName ≠ "")
    (hcon : operationNames.contains (trimSpace operationName) = false) :
    selectOperation operationNames operationName r =
      (r.addExternalError (.operationNotFound (trimSpace operationName)), none) := by
  unfold selectOperation
  dsimp only
  rw [if_neg (show ¬(trimSpace operationName = "" ∧ operationNames.length > 1) from
    fun h => htrim h.1)]
  rw [if_neg (show ¬(trimSpace operationName = "" ∧ operationNames.length = 1) from
    fun h => htrim h.1)]
  rw [if_pos (show ¬(operationNames.contains (trimSpace operationName) = true) from
    by rw [hcon]; exact Bool.false_ne_true)]

theorem selectOperation_single (n : String) (operationName : String) (r : Report)
    (htrim : trimSpace operationName = "") :
    selectOperation [n] operationName r = (r, some n) := by
  unfold selectOperation
  dsimp only
  rw [if_neg (show ¬(trimSpace operationName = "" ∧ ([n] : List String).length > 1) from
    fun h => absurd h.2 (by simp))]
  rw [if_pos (show trimSpace operationName = "" ∧ ([n] : List String).length = 1 from
    ⟨htrim, by simp⟩)]
  rw [if_neg (show ¬¬(([n] : List String).contains (([n] : List String).headD ("")) = true) from
    by simp)]
  simp

/-- The report after the operation-selection stage. -/
def selReport (operationNames : List String) (operationName : String) : Report :=
  (selectOperation operationNames operationName emptyReport).1

/-- The report after the prepare-operation stage. -/
def prepReport {σ π : Type} (env : PlanEnv σ π) (operationNames : List String)
    (operationName : String) : Report :=
  (selReport operationNames operationName).apply env.prepareDelta

/-- The report after the planning-path search. -/
def pathsReport {σ π : Type} (env : PlanEnv σ π) (operationNames : List String)
    (operationName : String) : Report :=
  (findPlanningPathsModel env.vm (prepReport env operationNames operationName)).1

/-! ## Claims about the orchestration -/

/-- C3: the revisit loop of `findPlanningPaths` performs at most 100 secondary
passes after the initial pass, on every input; when the convergence condition
still holds at every checkpoint up to and including after the 100th secondary
pass (and no pass reports errors), the search stops with an internal
non-convergence error listing every path of the missing-path tracker, and
`Plan` produces no plan — never a silent partial plan. -/
theorem claim_C3_convergence_bound {σ : Type} (vm : ConfigVisitorModel σ) (r : Report) :
    ((findPlanningPathsModel vm r).2.2 ≤ 100) ∧
    (vm.filterDelta.isEmpty = true →
     r.hasErrors = false →
     (vm.walk vm.initialState).2.isEmpty = true →
     (∀ k, k ≤ 100 →
       vm.shouldRevisit (walkIterate vm k (vm.walk vm.initialState).1) = true) →
     (∀ k, k ≤ 99 →
       (vm.walk (walkIterate vm k (vm.walk vm.initialState).1)).2.isEmpty = true) →
     (findPlanningPathsModel vm r =
        (r.addInternalError (.nonConvergence
            (vm.missingPathTracker (walkIterate vm 100 (vm.walk vm.initialState).1))),
          none, 100)) ∧
     (∀ (π : Type) (env : PlanEnv σ π)
        (operationNames : List String) (operationName : String),
        env.vm = vm → (planModel env operationNames operationName).1 = none)) := by
  refine ⟨findPlanningPathsModel_passes_le vm r, ?_⟩
  intro hfilter hr hinit hrev hdelta
  have hrev99 : ∀ k, k ≤ 99 →
      vm.shouldRevisit (walkIterate vm k (vm.walk vm.initialState).1) = true :=
    fun k hk => hrev k (by omega)
  refine ⟨findPlanningPathsModel_nonConvergence vm r hfilter hr hinit hrev99 hdelta, ?_⟩
  intro π env operationNames operationName henv
  subst henv
  unfold planModel
  dsimp only
  split
  · rfl
  · split
    · rfl
    · next hr2 =>
      have hr2' : ((selectOperation operationNames operationName emptyReport).1.apply
          env.prepareDelta).hasErrors = false := by
        simpa using hr2
      have hfp := findPlanningPathsModel_nonConvergence env.vm
        ((selectOperation operationNames operationName emptyReport).1.apply
          env.prepareDelta)
        hfilter hr2' hinit hrev99 hdelta
      rw [hfp]
      rw [if_pos (Report.hasErrors_addInternalError _ _)]

/-- A configuration visitor whose revisit condition never clears: every pass
keeps `shouldRevisit` true, no pass reports errors. -/
def vmDiverging : ConfigVisitorModel Unit :=
  ⟨⟨[], []⟩, (), fun s => (s, ⟨[], []⟩), fun _ => true, fun _ => ["query.a.b"]⟩

theorem claim_C3_witness :
    findPlanningPathsModel vmDiverging emptyReport =
      (emptyReport.addInternalError (.nonConvergence
          (vmDiverging.missingPathTracker
            (walkIterate vmDiverging 100 (vmDiverging.walk vmDiverging.initialState).1))),
        none, 100) :=
  ((claim_C3_convergence_bound vmDiverging emptyReport).2 rfl rfl rfl
    (fun _ _ => rfl) (fun _ _ => rfl)).1

/-- C4: if any stage (operation selection, operation preparation, planning-path
search, per-planner registration, final planning walk) adds an error to the
report, `Plan` returns right after that stage with a nil plan and the stage
trace stops there (later stages do not run); a non-nil plan is returned only
when the final report contains no errors. -/
theorem claim_C4_stage_sequencing {σ π : Type} (env : PlanEnv σ π)
    (operationNames : List String) (operationName : String) :
    ((selReport operationNames operationName).hasErrors = true →
      planModel env operationNames operationName =
        (none, selReport operationNames operationName, [.selectOperationStage])) ∧
    ((selReport operationNames operationName).hasErrors = false →
      (prepReport env operationNames operationName).hasErrors = true →
      planModel env operationNames operationName =
        (none, prepReport env operationNames operationName,
          [.selectOperationStage, .prepareOperationStage])) ∧
    ((selReport operationNames operationName).hasErrors = false →
      (prepReport env operationNames operationName).hasErrors = false →
      (pathsReport env operationNames operationName).hasErrors = true →
      planModel env operationNames operationName =
        (none, pathsReport env operationNames operationName,
          [.selectOperationStage, .prepareOperationStage, .findPlanningPathsStage])) ∧
    (∀ msg, (selReport operationNames operationName).hasErrors = false →
      (prepReport env operationNames operationName).hasErrors = false →
      (pathsReport env operationNames operationName).hasErrors = false →
      firstRegisterError env.registerResults = some msg →
      planModel env operationNames operationName =
        (none, (pathsReport env operationNames operationName).addInternalError
            (.registration msg),
          [.selectOperationStage, .prepareOperationStage, .findPlanningPathsStage,
           .registerPlannersStage])) ∧
    ((selReport operationNames operationName).hasErrors = false →
      (prepReport env operationNames operationName).hasErrors = false →
      (pathsReport env operationNames operationName).hasErrors = false →
      firstRegisterError env.registerResults = none →
      ((pathsReport env operationNames operationName).apply
          env.planningWalkDelta).hasErrors = true →
      planModel env operationNames operationName =
        (none, (pathsReport env operationNames operationName).apply
          env.planningWalkDelta, allPlanStages)) ∧
    ((planModel env operationNames operationName).1.isSome = true →
      (planModel env operationNames operationName).2.1.hasErrors = false) := by
  refine ⟨?_, ?_, ?_, ?_, ?_, ?_⟩
  · intro h1
    unfold selReport at h1
    unfold planModel
    dsimp only
    rw [if_pos h1]
    rfl
  · intro h1 h2
    unfold selReport at h1
    unfold prepReport selReport at h2
    unfold planModel
    dsimp only
    rw [if_neg (by simp [h1]), if_pos h2]
    rfl
  · intro h1 h2 h3
    unfold selReport at h1
    unfold prepReport selReport at h2
    unfold pathsReport prepReport selReport at h3
    unfold planModel
    dsimp only
    rw [if_neg (by simp [h1]), if_neg (by simp [h2]), if_pos h3]
    rfl
  · intro msg h1 h2 h3 hreg
    unfold selReport at h1
    unfold prepReport selReport at h2
    unfold pathsReport prepReport selReport at h3
    unfold planModel
    dsimp only
    rw [if_neg (by simp [h1]), if_neg (by simp [h2]), if_neg (by simp [h3]), hreg]
    rfl
  · intro h1 h2 h3 hreg h5
    unfold selReport at h1
    unfold prepReport selReport at h2
    unfold pathsReport prepReport selReport at h3
    unfold pathsReport prepReport selReport at h5
    unfold planModel
    dsimp only
    rw [if_neg (by simp [h1]), if_neg (by simp [h2]), if_neg (by simp [h3]), hreg]
    show (if _ = true then _ else _) = _
    rw [if_pos h5]
    rfl
  · unfold planModel
    dsimp only
    split
    · intro h
      exact absurd h (by simp)
    · split
      · intro h
        exact absurd h (by simp)
      · split
        · intro h
          exact absurd h (by simp)
        · split
          · intro h
            exact absurd h (by simp)
          · split
            · intro h
              exact absurd h (by simp)
            · next hcond =>
              intro _
              simpa using hcond

/-- A configuration visitor that converges immediately and reports nothing. -/
def vmIdle : ConfigVisitorModel Unit :=
  ⟨⟨[], []⟩, (), fun s => (s, ⟨[], []⟩), fun _ => false, fun _ => []⟩

/-- An environment whose prepare-operation walker reports an error. -/
def envPrepareFails : PlanEnv Unit Unit :=
  ⟨vmIdle, ⟨[.documentError ("prepare")], []⟩, [], ⟨[], []⟩, some ()⟩

theorem claim_C4_witness :
    planModel envPrepareFails ["getUser"] "getUser" =
      (none, prepReport envPrepareFails ["getUser"] "getUser",
        [.selectOperationStage, .prepareOperationStage]) :=
  (claim_C4_stage_sequencing envPrepareFails ["getUser"] "getUser").2.1
    (by decide) (by decide)

/-- C7: every planner path opened for a fragment-type match that never received
a confirmed concrete field selection underneath it is removed by the pruning
(pruned planner paths are what plan assembly consumes, so such a path never
appears in the final plan's fetch list), and `removeUnnecessaryFragmentPaths`
returns whether any path was removed from any planner. -/
theorem claim_C7_fragment_pruning (planners : List (List PathConfiguration)) :
    ((removeUnnecessaryFragmentPaths planners).1 =
      planners.map (fun ps => (removeLeafFragmentPaths ps).1)) ∧
    (∀ ps ∈ planners, ∀ p ∈ (removeLeafFragmentPaths ps).1,
      p.isFragmentPath = true → pathConfirmed p ps = true) ∧
    ((removeUnnecessaryFragmentPaths planners).2 = true ↔
      ∃ ps ∈ planners, (removeLeafFragmentPaths ps).1 ≠ ps) := by
  refine ⟨?_, ?_, ?_⟩
  · rw [removeUnnecessaryFragmentPaths_eq]
  · intro ps _ p hp hfrag
    exact ((mem_removeLeafFragmentPaths ps p).mp hp).2 hfrag
  · rw [removeUnnecessaryFragmentPaths_eq]
    dsimp only
    rw [List.any_eq_true]
    constructor
    · rintro ⟨ps, hmem, hflag⟩
      exact ⟨ps, hmem, (removeLeafFragmentPaths_flag ps).mp hflag⟩
    · rintro ⟨ps, hmem, hne⟩
      exact ⟨ps, hmem, (removeLeafFragmentPaths_flag ps).mpr hne⟩

def fragPathU : PathConfiguration := ⟨"query.u", true⟩

def fragPathA : PathConfiguration := ⟨"query.a", true⟩

def fieldPathAX : PathConfiguration := ⟨"query.a.x", false⟩

theorem claim_C7_witness :
    ((removeUnnecessaryFragmentPaths [[fragPathU, fragPathA, fieldPathAX]]).1 =
      [[fragPathU, fragPathA, fieldPathAX]].map
        (fun ps => (removeLeafFragmentPaths ps).1)) ∧
    (∀ ps ∈ [[fragPathU, fragPathA, fieldPathAX]],
      ∀ p ∈ (removeLeafFragmentPaths ps).1,
      p.isFragmentPath = true → pathConfirmed p ps = true) ∧
    ((removeUnnecessaryFragmentPaths [[fragPathU, fragPathA, fieldPathAX]]).2 = true ↔
      ∃ ps ∈ [[fragPathU, fragPathA, fieldPathAX]],
        (removeLeafFragmentPaths ps).1 ≠ ps) :=
  claim_C7_fragment_pruning [[fragPathU, fragPathA, fieldPathAX]]

example : removeLeafFragmentPaths [fragPathU, fragPathA, fieldPathAX] =
    ([fragPathA, fieldPathAX], true) := by decide

/-- C8: a configuration whose data-source list contains two entries with the
same id makes `NewPlanner` return an error naming a duplicated id and no
planner, so no plan can be produced from it; when all ids are distinct, this
error is not raised. -/
theorem claim_C8_duplicate_ids (dataSources : List DataSourceConfiguration) :
    ((dataSources.map (fun ds => ds.id)).Nodup → newPlanner dataSources = .ok ()) ∧
    (¬(dataSources.map (fun ds => ds.id)).Nodup →
      ∃ i, newPlanner dataSources = .error ("duplicate datasource id: " ++ i) ∧
        2 ≤ (dataSources.map (fun ds => ds.id)).count i) := by
  constructor
  · intro hnd
    unfold newPlanner
    have h := (checkDuplicateIds_none_iff (dataSources.map (fun ds => ds.id)) []).mpr
      ⟨hnd, fun a _ => List.not_mem_nil a⟩
    rw [h]
  · intro hnd
    unfold newPlanner
    cases hchk : checkDuplicateIds (dataSources.map (fun ds => ds.id)) [] with
    | none =>
      exact absurd ((checkDuplicateIds_none_iff _ _).mp hchk).1 hnd
    | some i =>
      obtain ⟨hmem, hrest⟩ := checkDuplicateIds_some _ _ i hchk
      rcases hrest with habs | hcount
      · exact absurd habs (List.not_mem_nil i)
      · exact ⟨i, rfl, hcount⟩

/-- A second data source with the id of `dsAlpha`. -/
def dsAlphaDup : DataSourceConfiguration := ⟨"alpha", [("Query", "c")], []⟩

theorem claim_C8_witness :
    ∃ i, newPlanner [dsAlpha, dsAlphaDup] =
        .error ("duplicate datasource id: " ++ i) ∧
      2 ≤ (([dsAlpha, dsAlphaDup]).map (fun ds => ds.id)).count i :=
  (claim_C8_duplicate_ids [dsAlpha, dsAlphaDup]).2 (by decide)

/-- C9: with more than one operation in the document and a name empty after
trimming, `selectOperation` adds the external required-operation-name-missing
error and `Plan` stops at the selection stage before any traversal; a non-empty
trimmed name matching no operation adds the external operation-not-found error
naming it; with exactly one operation and an empty name, that single operation
is selected and no error is added, so planning proceeds. -/
theorem claim_C9_operation_selection (operationNames : List String)
    (operationName : String) (r : Report) :
    (trimSpace operationName = "" → operationNames.length > 1 →
      selectOperation operationNames operationName r =
        (r.addExternalError .requiredOperationNameMissing, none)) ∧
    (trimSpace operationName ≠ "" →
      operationNames.contains (trimSpace operationName) = false →
      selectOperation operationNames operationName r =
        (r.addExternalError (.operationNotFound (trimSpace operationName)), none)) ∧
    (∀ n, operationNames = [n] → trimSpace operationName = "" →
      selectOperation operationNames operationName r = (r, some n)) ∧
    (∀ (σ π : Type) (env : PlanEnv σ π),
      trimSpace operationName = "" → operationNames.length > 1 →
      planModel env operationNames operationName =
        (none, emptyReport.addExternalError .requiredOperationNameMissing,
          [.selectOperationStage])) := by
  refine ⟨?_, ?_, ?_, ?_⟩
  · exact selectOperation_missing_name operationNames operationName r
  · exact selectOperation_not_found operationNames operationName r
  · intro n hops htrim
    subst hops
    exact selectOperation_single n operationName r htrim
  · intro σ π env htrim hgt
    have hsel := selectOperation_missing_name operationNames operationName
      emptyReport htrim hgt
    unfold planModel
    dsimp only
    rw [hsel]
    rw [if_pos (Report.hasErrors_addExternalError _ _)]

theorem claim_C9_witness :
    selectOperation ["q1", "q2"] "  " emptyReport =
      (emptyReport.addExternalError .requiredOperationNameMissing, none) :=
  (claim_C9_operation_selection ["q1", "q2"] "  " emptyReport).1
    (by decide) (by decide)

end GraphqlPlan
